import Mathlib

/-!
# mockmaker: mocked functions, mocked classes and the parse state

A shallow embedding of `MockedFunction` and `MockedClass` (`src/include/Mocks.hpp`), of their
constructors and conversions to `std::string`, and of the constructors of `ParseState`
(`src/include/Parse.hpp`).

Modelling conventions.

* `std::string` is `String`. The texts handled are UTF-8, for which the byte-wise order and the
  byte-wise substring search of `std::string` agree with the code-point-wise ones of `String`.
* `std::vector<T>` is `List T`; `push_back` appends at the end.
* `std::format` is an interpreter of the format string (`format`): automatic fields, fields with
  an index, and the two doubled-brace escapes; its arguments are passed already formatted.
  In a format string `\x7b` and `\x7d` are the opening and the closing brace.
* A libclang cursor is the record of what the queries made by the source answer for it
  (`CXCursor`); a pointer is the address it holds, and the vector behind an address is looked
  up in a map.
* `rand()` reads a pseudo-random generator that is global state in C; here the generator is
  passed explicitly (`RandState`) and every function that may call `rand()` returns the
  generator it leaves behind.
-/

namespace MockMaker

/-! ## Library functions used by the source -/

/-- Modelled from the spec: `vec_join` of `Util.hpp`, which is not among the sources. It is the
usual separator join: the elements in order, with `delim` between consecutive elements, and the
empty string for an empty vector. -/
def vec_join : List String → String → String
  | [], _ => ""
  | [x], _ => x
  | x :: y :: rest, delim => x ++ delim ++ vec_join (y :: rest) delim

/-- What `std::format` writes for a field holding an unsigned integer (`size_t`, `uint16_t`):
its decimal digits. -/
def format_uint (n : Nat) : String := Nat.repr n

/-- Where the scan of a format string stands: in plain text, inside a replacement field (with
the argument index read so far, if any), or just after a closing brace in plain text. -/
inductive FormatState where
  | text
  | field (index : Option Nat)
  | closing

/-- The scan of a format string by `std::format`. Outside a field a character is copied, an
opening brace starts a field, and a closing brace must be doubled and yields one closing brace.
Right after an opening brace a second opening brace yields one opening brace; a closing brace
ends an automatic field, which is replaced by the argument `next`; digits give the index of the
argument replacing the field. A missing argument is replaced by nothing. -/
def format_go (args : List (List Char)) : List Char → FormatState → Nat → List Char
  | [], _, _ => []
  | c :: rest, .text, next =>
    if c = '\x7b' then format_go args rest (.field none) next
    else if c = '\x7d' then format_go args rest .closing next
    else c :: format_go args rest .text next
  | c :: rest, .field none, next =>
    if c = '\x7b' then '\x7b' :: format_go args rest .text next
    else if c = '\x7d' then args.getD next [] ++ format_go args rest .text (next + 1)
    else format_go args rest (.field (some (c.toNat - 48))) next
  | c :: rest, .field (some i), next =>
    if c = '\x7d' then args.getD i [] ++ format_go args rest .text next
    else format_go args rest (.field (some (10 * i + (c.toNat - 48)))) next
  | _ :: rest, .closing, next => '\x7d' :: format_go args rest .text next

/-- The call `std::format(fmt, args...)` with string arguments. -/
def format (fmt : String) (args : List String) : String :=
  ⟨format_go (args.map String.data) fmt.data .text 0⟩

/-- Search of `pat` in the characters `s`, the first of which is at index `pos` of the string
being searched: the index of the first occurrence, or `none`. -/
def find_from (pat : List Char) : List Char → Nat → Option Nat
  | [], pos => if pat.isPrefixOf [] then some pos else none
  | c :: cs, pos => if pat.isPrefixOf (c :: cs) then some pos else find_from pat cs (pos + 1)

/-- The call `std::string::find(pat)`: the index of the first occurrence of `pat` in `s`;
`none` stands for `std::string::npos`. -/
def find (s pat : String) : Option Nat := find_from pat.data s.data 0

/-- The `operator<` of `std::string` on the characters of two strings: lexicographic comparison
character by character, a proper prefix being smaller. -/
def lex_lt : List Char → List Char → Bool
  | _, [] => false
  | [], _ :: _ => true
  | a :: as, b :: bs =>
    if a.toNat < b.toNat then true
    else if b.toNat < a.toNat then false
    else lex_lt as bs

/-- The `operator<` of `std::string`. -/
def str_lt (a b : String) : Bool := lex_lt a.data b.data

/-- The comparison `std::sort` orders by, as "not greater": `a` may stand before `b`. -/
def str_le (a b : String) : Bool := !str_lt b a

/-- The call `std::sort(v.begin(), v.end())` on a vector of strings: the elements of `v` in
non-decreasing order of `operator<`. -/
def sort (v : List String) : List String :=
  v.insertionSort (fun a b => str_le a b = true)

/-- The loop of `std::unique`: `last` is the element kept most recently; an element equal to it
is skipped, any other element is kept and becomes `last`. -/
def unique_from (last : String) : List String → List String
  | [] => []
  | y :: rest => if last = y then unique_from last rest else y :: unique_from y rest

/-- The call `v.erase(std::unique(v.begin(), v.end()), v.end())`: of every run of adjacent equal
elements only the first stays. -/
def unique : List String → List String
  | [] => []
  | x :: rest => x :: unique_from x rest

/-- The state of the pseudo-random generator behind `rand()`: the values that the coming calls
return, `g 0` first. -/
def RandState : Type := Nat → Nat

/-- The call `rand()`: the next value, and the generator after the call. -/
def rand (g : RandState) : Nat × RandState := (g 0, fun i => g (i + 1))

/-! ## `MockedFunction` -/

/-- The fields of `struct MockedFunction`. -/
structure MockedFunction where
  is_ctor : Bool
  type : String
  name : String
  arg_types : List String
  typed_args : List String
  untyped_args : List String
  deriving DecidableEq

/-- The conversion `MockedFunction::operator std::string`. The operator branch calls `rand()`
once and narrows the value to `uint16_t`; the other two branches leave the generator alone. -/
def MockedFunction.to_string (f : MockedFunction) (g : RandState) : String × RandState :=
  if f.is_ctor then
    (format "Mock{0}({1}) : {0}({2}) {{}}"
      [f.name, vec_join f.typed_args ", ", vec_join f.untyped_args ", "], g)
  else if (find f.name "operator").isSome then
    let n := (rand g).1 % 65536
    (format
      ("MOCK_METHOD{0}(Operator{1}, {2}({3}));\n        "
        ++ "virtual {2} {4}({5}) {{ return Operator{1}({6}); }}")
      [format_uint f.typed_args.length, format_uint n, f.type, vec_join f.arg_types ", ",
        f.name, vec_join f.typed_args ", ", vec_join f.untyped_args ", "], (rand g).2)
  else
    (format "MOCK_METHOD{}({}, {}({}));"
      [format_uint f.typed_args.length, f.name, f.type, vec_join f.arg_types ", "], g)

/-! ## `MockedClass` -/

/-- The fields of `struct MockedClass`. -/
structure MockedClass where
  name : String
  qualified_name : String
  templ : String
  funcs : List MockedFunction

/-- The constructor `MockedClass(name, namespaces, template_params)`. -/
def MockedClass.new (name : String) (namespaces template_params : List String) : MockedClass :=
  MockedClass.mk name
    (format "{}::{}" [vec_join namespaces "::", name])
    (if template_params.length = 0 then ""
     else format "template<{}>\n    " [vec_join template_params ", "])
    []

/-- The loop `for (auto const& func : funcs) funcs_str.push_back(func)`: every member is
converted in order, each conversion continuing with the generator the previous one left. -/
def render_funcs : List MockedFunction → RandState → List String × RandState
  | [], g => ([], g)
  | f :: fs, g =>
    ((f.to_string g).1 :: (render_funcs fs (f.to_string g).2).1,
      (render_funcs fs (f.to_string g).2).2)

/-- The vector `funcs_str` when it is joined: the converted members, sorted, freed of adjacent
duplicates and reversed. -/
def member_lines (funcs : List MockedFunction) (g : RandState) : List String :=
  (unique (sort (render_funcs funcs g).1)).reverse

/-- The conversion `MockedClass::operator std::string`: the empty string for an empty name,
else the class block around the member lines. -/
def MockedClass.to_string (c : MockedClass) (g : RandState) : String × RandState :=
  if c.name = "" then ("", g)
  else
    (format
      ("    {}class Mock{} : public {}\n"
        ++ "    \x7b\x7b\n"
        ++ "      public:\n"
        ++ "        {}\n"
        ++ "    \x7d\x7d;\n")
      [c.templ, c.name, c.qualified_name, vec_join (member_lines c.funcs g) "\n        "],
      (render_funcs c.funcs g).2)

/-! ## Declarations handed over by libclang -/

/-- Modelled from the spec: `cxstring_to_string` of `Util.hpp`, which is not among the sources.
A `CXString` is taken as the text it holds, and the conversion returns that text unchanged. -/
def cxstring_to_string (s : String) : String := s

/-- What libclang answers about a cursor, as far as the constructor of `MockedFunction` asks:
`spelling` is `clang_getCursorSpelling(cursor)`, `result_type` the spelling of the result type
of `clang_getCursorType(cursor)`, `num_arguments` is `clang_Cursor_getNumArguments(cursor)`
(negative for a cursor that is no function), `arg_type i` the spelling of
`clang_getArgType(cursor_type, i)` and `arg_name i` the spelling of
`clang_Cursor_getArgument(cursor, i)`. -/
structure CXCursor where
  spelling : String
  result_type : String
  num_arguments : Int
  arg_type : Nat → String
  arg_name : Nat → String

/-- The body of the loop over the arguments in the constructor of `MockedFunction`: the three
`push_back` calls for argument `i`. -/
def MockedFunction.push_arg (cursor : CXCursor) (f : MockedFunction) (i : Nat) : MockedFunction :=
  let arg_data_type := cxstring_to_string (cursor.arg_type i)
  let arg_name := cxstring_to_string (cursor.arg_name i)
  { f with
    arg_types := f.arg_types ++ [arg_data_type]
    typed_args := f.typed_args
      ++ [format "{}{}{}" [arg_data_type, if arg_name = "" then "" else " ", arg_name]]
    untyped_args := f.untyped_args ++ [arg_name] }

/-- The constructor `MockedFunction(cursor, is_ctor)`: the name, the return type unless the
member is a constructor, and the loop `for (int i = 0; i < num_args; ++i)` with
`num_args = max(0, clang_Cursor_getNumArguments(cursor))`. -/
def MockedFunction.new (cursor : CXCursor) (is_ctor : Bool) : MockedFunction :=
  (List.range (max 0 cursor.num_arguments).toNat).foldl (MockedFunction.push_arg cursor)
    (MockedFunction.mk is_ctor
      (if !is_ctor then cxstring_to_string cursor.result_type else "")
      (cxstring_to_string cursor.spelling) [] [] [])

/-- The method `MockedClass::add_function(cursor, is_ctor = false)`. -/
def MockedClass.add_function (c : MockedClass) (cursor : CXCursor) (is_ctor : Bool := false) :
    MockedClass :=
  { c with funcs := c.funcs ++ [MockedFunction.new cursor is_ctor] }

/-! ## `ParseState` (`src/include/Parse.hpp`) -/

/-- A pointer, as the address it holds; `0` is `nullptr`. -/
def Pointer : Type := Nat

/-- The fields of `struct ParseState`; `out` points to a `ParseResult` and `valid_namespaces`
to a vector of strings. -/
structure ParseState where
  continue_descending : Bool
  has_namespace : Bool
  class_name : String
  out : Pointer
  namespaces : List String
  valid_namespaces : Pointer

/-- The constructor `ParseState()`: the default member initializers and `out(nullptr)`; the
pointer `valid_namespaces` is left uninitialized and is therefore an argument here. -/
def ParseState.default (valid_namespaces : Pointer) : ParseState :=
  ParseState.mk true false "" (0 : Nat) [] valid_namespaces

/-- The copy constructor `ParseState(ParseState &ps)`: five fields are copied;
`continue_descending` is not in the initializer list and takes its default member
initializer. -/
def ParseState.copy (ps : ParseState) : ParseState :=
  ParseState.mk true ps.has_namespace ps.class_name ps.out ps.namespaces ps.valid_namespaces

/-- The constructor `ParseState(out, valid_namespaces)`; `vectors` gives the vector that an
address points to, and `valid_namespaces->empty()` reads it. -/
def ParseState.new (vectors : Pointer → List String) (out valid_namespaces : Pointer) :
    ParseState :=
  ParseState.mk true (if (vectors valid_namespaces).isEmpty then true else false) ""
    out [] valid_namespaces

/-! ## Specification-side definitions -/

/-- The member order as the specification words it: the rendered strings sorted
lexicographically, deduplicated, and the order reversed; written with the library's sort and
duplicate removal over the order of `String`. -/
def spec_member_order (rendered : List String) : List String :=
  ((rendered.insertionSort (· ≤ ·)).dedup).reverse

/-- The qualified name as the specification words it: every enclosing namespace, outermost
first, each followed by `::`, and then the simple name. -/
def spec_qualified_name (namespaces : List String) (name : String) : String :=
  namespaces.foldr (fun n acc => n ++ "::" ++ acc) name

/-- An operator member as the specification calls it: a member that is no constructor and whose
name contains `operator`; these are the members whose conversion calls `rand()`. -/
def is_operator_member (f : MockedFunction) : Bool :=
  !f.is_ctor && (find f.name "operator").isSome

/-- The cursor of a declaration given, as in the specification, by its name, the spelling of
its return type and the ordered list of its (type spelling, parameter name) pairs. -/
def cursor_of_params (name result_type : String) (params : List (String × String)) : CXCursor :=
  CXCursor.mk name result_type params.length
    (fun i => (params.getD i ("", "")).1) (fun i => (params.getD i ("", "")).2)

/-- The typed argument as the specification words it: the type, a single blank and the name,
or the bare type when the name is empty. -/
def spec_typed_arg (p : String × String) : String :=
  if p.2 = "" then p.1 else p.1 ++ " " ++ p.2

/-- The surrogate name that the conversion of an operator member writes when it starts from
the generator `g`: `Operator` and the decimal digits of the value of `rand()` narrowed to
`uint16_t`. -/
def surrogate_name (g : RandState) : String :=
  "Operator" ++ format_uint ((rand g).1 % 65536)

/-! ## Substring search -/

theorem find_from_ne_none_iff (pat s : List Char) (pos : Nat) :
    find_from pat s pos ≠ none ↔ ∃ pre post, s = pre ++ pat ++ post := by
  induction s generalizing pos with
  | nil =>
    unfold find_from
    by_cases h : pat.isPrefixOf [] = true
    · have hp : pat = [] := by
        have := List.isPrefixOf_iff_prefix.mp h
        exact List.prefix_nil.mp this
      simp only [h, if_true]
      exact ⟨fun _ => ⟨[], [], by simp [hp]⟩, fun _ => by simp⟩
    · simp only [h, Bool.false_eq_true, if_false]
      constructor
      · intro hc; exact absurd rfl hc
      · rintro ⟨pre, post, he⟩
        have hp : pat = [] := by
          have h1 := congrArg List.length he
          simp only [List.length_nil, List.length_append] at h1
          exact List.length_eq_zero.mp (by omega)
        subst hp
        simp at h
  | cons c cs ih =>
    unfold find_from
    by_cases h : pat.isPrefixOf (c :: cs) = true
    · simp only [h, if_true]
      obtain ⟨t, ht⟩ := List.isPrefixOf_iff_prefix.mp h
      exact ⟨fun _ => ⟨[], t, by simp [ht]⟩, fun _ => by simp⟩
    · simp only [h, Bool.false_eq_true, if_false]
      rw [ih (pos + 1)]
      constructor
      · rintro ⟨pre, post, he⟩
        exact ⟨c :: pre, post, by simp [he]⟩
      · rintro ⟨pre, post, he⟩
        cases pre with
        | nil =>
          exfalso
          apply h
          exact List.isPrefixOf_iff_prefix.mpr ⟨post, by simp [he]⟩
        | cons d pre =>
          simp only [List.cons_append, List.cons.injEq] at he
          exact ⟨pre, post, he.2⟩

theorem find_ne_none_iff (s pat : String) :
    find s pat ≠ none ↔ ∃ pre post : String, s = pre ++ pat ++ post := by
  unfold find
  rw [find_from_ne_none_iff]
  constructor
  · rintro ⟨pre, post, he⟩
    exact ⟨⟨pre⟩, ⟨post⟩, String.ext (by simpa [String.data_append] using he)⟩
  · rintro ⟨pre, post, he⟩
    exact ⟨pre.data, post.data, by rw [he]; simp [String.data_append]⟩

/-! ## The order of strings and the sorting steps -/

theorem lex_lt_iff_lex (as bs : List Char) : lex_lt as bs = true ↔ List.Lex (· < ·) as bs := by
  induction as generalizing bs with
  | nil =>
    cases bs with
    | nil => simp [lex_lt]
    | cons b bs => simp [lex_lt, List.Lex.nil]
  | cons a as ih =>
    cases bs with
    | nil => simp [lex_lt]
    | cons b bs =>
      have hab : a.toNat < b.toNat ↔ a < b := Iff.rfl
      have hba : b.toNat < a.toNat ↔ b < a := Iff.rfl
      unfold lex_lt
      by_cases h1 : a < b
      · simp [hab.mpr h1, List.Lex.rel h1]
      · by_cases h2 : b < a
        · have h3 : ¬ List.Lex (· < ·) (a :: as) (b :: bs) := by
            intro h
            cases h with
            | cons h => exact absurd h2 (lt_irrefl _)
            | rel h => exact h1 h
          simp [mt hab.mp h1, hba.mpr h2, h3]
        · have hEq : a = b := le_antisymm (not_lt.mp h2) (not_lt.mp h1)
          subst hEq
          simp [ih, List.Lex.cons_iff]

theorem lex_lt_iff (as bs : List Char) : lex_lt as bs = true ↔ as < bs :=
  lex_lt_iff_lex as bs
theorem str_lt_iff (a b : String) : str_lt a b = true ↔ a < b := by
  unfold str_lt
  rw [lex_lt_iff, String.lt_iff_toList_lt]
  rfl

theorem str_le_iff (a b : String) : str_le a b = true ↔ a ≤ b := by
  unfold str_le
  rw [Bool.not_eq_true_eq_eq_false, ← not_lt, ← str_lt_iff]
  simp


theorem sort_sorted (v : List String) : (sort v).Pairwise (· ≤ ·) := by
  haveI : IsTotal String (fun a b => str_le a b = true) :=
    ⟨fun a b => by simp only [str_le_iff]; exact le_total a b⟩
  haveI : IsTrans String (fun a b => str_le a b = true) :=
    ⟨fun a b c => by simp only [str_le_iff]; exact le_trans⟩
  have h := List.sorted_insertionSort (fun a b : String => str_le a b = true) v
  exact List.Pairwise.imp (fun hab => (str_le_iff _ _).mp hab) h

theorem sort_perm (v : List String) : List.Perm (sort v) v :=
  List.perm_insertionSort _ v

theorem mem_sort (v : List String) (s : String) : s ∈ sort v ↔ s ∈ v :=
  (sort_perm v).mem_iff

theorem mem_of_mem_unique_from (last s : String) (l : List String)
    (h : s ∈ unique_from last l) : s ∈ l := by
  induction l generalizing last with
  | nil => simp [unique_from] at h
  | cons y rest ih =>
    unfold unique_from at h
    split at h
    · exact List.mem_cons_of_mem _ (ih _ h)
    · rcases List.mem_cons.mp h with h | h
      · exact h ▸ List.mem_cons_self _ _
      · exact List.mem_cons_of_mem _ (ih _ h)

theorem mem_unique_from_of_mem (last s : String) (l : List String)
    (h : s ∈ l) : s = last ∨ s ∈ unique_from last l := by
  induction l generalizing last with
  | nil => simp at h
  | cons y rest ih =>
    unfold unique_from
    rcases List.mem_cons.mp h with h | h
    · subst h
      by_cases hl : last = s
      · exact Or.inl hl.symm
      · simp [hl]
    · by_cases hl : last = y
      · simpa [hl] using ih y h
      · rcases ih y h with h1 | h1
        · simp [hl, h1]
        · simp [hl, h1]

theorem mem_unique (l : List String) (s : String) : s ∈ unique l ↔ s ∈ l := by
  cases l with
  | nil => simp [unique]
  | cons x rest =>
    unfold unique
    constructor
    · intro h
      rcases List.mem_cons.mp h with h | h
      · exact h ▸ List.mem_cons_self _ _
      · exact List.mem_cons_of_mem _ (mem_of_mem_unique_from _ _ _ h)
    · intro h
      rcases List.mem_cons.mp h with h | h
      · exact h ▸ List.mem_cons_self _ _
      · rcases mem_unique_from_of_mem x s rest h with h1 | h1
        · exact h1 ▸ List.mem_cons_self _ _
        · exact List.mem_cons_of_mem _ h1

theorem unique_from_strict (last : String) (l : List String)
    (h : (last :: l).Pairwise (· ≤ ·)) : (last :: unique_from last l).Pairwise (· < ·) := by
  induction l generalizing last with
  | nil => simp [unique_from]
  | cons y rest ih =>
    unfold unique_from
    by_cases hl : last = y
    · subst hl
      simp only [if_true]
      exact ih last (List.Pairwise.of_cons h)
    · simp only [hl, if_false]
      have hy : (y :: rest).Pairwise (· ≤ ·) := List.Pairwise.of_cons h
      have hly : last < y :=
        lt_of_le_of_ne (List.rel_of_pairwise_cons h (List.mem_cons_self _ _)) hl
      refine List.pairwise_cons.mpr ⟨?_, ih y hy⟩
      intro s hs
      rcases List.mem_cons.mp hs with hs | hs
      · exact hs ▸ hly
      · exact lt_of_lt_of_le hly
          (List.rel_of_pairwise_cons hy (mem_of_mem_unique_from _ _ _ hs))

theorem unique_strict (l : List String) (h : l.Pairwise (· ≤ ·)) :
    (unique l).Pairwise (· < ·) := by
  cases l with
  | nil => simp [unique]
  | cons x rest => exact unique_from_strict x rest h

/-! ## Decimal formatting -/

theorem digitChar_isDigit (d : Nat) (h : d < 10) : (Nat.digitChar d).isDigit = true := by
  interval_cases d <;> rfl

theorem toDigitsCore_isDigit (fuel n : Nat) (ds : List Char)
    (h : ∀ c ∈ ds, c.isDigit = true) :
    ∀ c ∈ Nat.toDigitsCore 10 fuel n ds, c.isDigit = true := by
  induction fuel generalizing n ds with
  | zero => simpa [Nat.toDigitsCore] using h
  | succ fuel ih =>
    have hd : ∀ c ∈ Nat.digitChar (n % 10) :: ds, c.isDigit = true := by
      intro c hc
      rcases List.mem_cons.mp hc with hc | hc
      · exact hc ▸ digitChar_isDigit _ (Nat.mod_lt _ (by decide))
      · exact h c hc
    unfold Nat.toDigitsCore
    by_cases h0 : n / 10 = 0
    · simpa [h0] using hd
    · simpa [h0] using ih (n / 10) _ hd

theorem toDigitsCore_length_le (fuel n : Nat) (ds : List Char) :
    ds.length ≤ (Nat.toDigitsCore 10 fuel n ds).length := by
  induction fuel generalizing n ds with
  | zero => simp [Nat.toDigitsCore]
  | succ fuel ih =>
    unfold Nat.toDigitsCore
    by_cases h0 : n / 10 = 0
    · simp [h0]
    · simp only [h0, if_false]
      exact le_trans (by simp) (ih (n / 10) (Nat.digitChar (n % 10) :: ds))

theorem format_uint_digits (n : Nat) : ∀ c ∈ (format_uint n).data, c.isDigit = true := by
  intro c hc
  exact toDigitsCore_isDigit (n + 1) n [] (by simp) c hc

theorem format_uint_ne_empty (n : Nat) : format_uint n ≠ "" := by
  intro h
  have h1 : (format_uint n).data = [] := by rw [h]
  have h2 : (Nat.toDigitsCore 10 (n + 1) n []).length = 0 := by
    have : (format_uint n).data = Nat.toDigitsCore 10 (n + 1) n [] := rfl
    rw [← this, h1]; rfl
  unfold Nat.toDigitsCore at h2
  by_cases h0 : n / 10 = 0
  · simp [h0] at h2
  · simp only [h0, if_false] at h2
    have := toDigitsCore_length_le n (n / 10) [Nat.digitChar (n % 10)]
    simp at this
    omega

theorem digitChar_toNat (d : Nat) (h : d < 10) : (Nat.digitChar d).toNat - 48 = d := by
  interval_cases d <;> rfl

theorem toDigitsCore_eq_digits (fuel n : Nat) (ds : List Char) (hn : 0 < n) (hf : n < fuel) :
    Nat.toDigitsCore 10 fuel n ds = ((Nat.digits 10 n).reverse.map Nat.digitChar) ++ ds := by
  induction fuel generalizing n ds with
  | zero => omega
  | succ fuel ih =>
    unfold Nat.toDigitsCore
    rw [Nat.digits_def' (by decide) hn]
    by_cases h0 : n / 10 = 0
    · simp [h0]
    · simp only [h0, if_false]
      have hpos : 0 < n / 10 := Nat.pos_of_ne_zero h0
      have hlt : n / 10 < fuel := by
        have := Nat.div_lt_self hn (by decide : 1 < 10)
        omega
      rw [ih (n / 10) _ hpos hlt]
      simp

theorem format_uint_value (n : Nat) :
    Nat.ofDigits 10 (((format_uint n).data.reverse).map (fun c => c.toNat - 48)) = n := by
  rcases Nat.eq_zero_or_pos n with h | h
  · subst h
    rfl
  · have hd : (format_uint n).data = (Nat.digits 10 n).reverse.map Nat.digitChar := by
      have := toDigitsCore_eq_digits (n + 1) n [] h (Nat.lt_succ_self n)
      simpa using this
    rw [hd, ← List.map_reverse, List.reverse_reverse, List.map_map]
    have hm : (Nat.digits 10 n).map ((fun c => c.toNat - 48) ∘ Nat.digitChar) = Nat.digits 10 n := by
      conv_rhs => rw [← List.map_id (Nat.digits 10 n)]
      apply List.map_congr_left
      intro d hdm
      exact digitChar_toNat d (Nat.digits_lt_base (by decide) hdm)
    rw [hm, Nat.ofDigits_digits]

theorem format_uint_inj (n m : Nat) (h : format_uint n = format_uint m) : n = m := by
  rw [← format_uint_value n, ← format_uint_value m, h]

/-! ## The member lines of a class -/

theorem member_lines_decreasing (fs : List MockedFunction) (g : RandState) :
    (member_lines fs g).Pairwise (fun a b => b < a) := by
  unfold member_lines
  exact List.pairwise_reverse.mpr (unique_strict _ (sort_sorted _))

theorem member_lines_nodup (fs : List MockedFunction) (g : RandState) :
    (member_lines fs g).Nodup :=
  List.Pairwise.imp (fun h => (ne_of_lt h).symm) (member_lines_decreasing fs g)

theorem mem_member_lines (fs : List MockedFunction) (g : RandState) (s : String) :
    s ∈ member_lines fs g ↔ s ∈ (render_funcs fs g).1 := by
  unfold member_lines
  rw [List.mem_reverse, mem_unique, mem_sort]

theorem spec_member_order_decreasing (l : List String) :
    (spec_member_order l).Pairwise (fun a b => b < a) := by
  unfold spec_member_order
  have hs : (l.insertionSort (· ≤ ·)).Pairwise (· ≤ ·) := List.sorted_insertionSort _ l
  have hd : ((l.insertionSort (· ≤ ·)).dedup).Pairwise (· ≤ ·) :=
    List.Pairwise.sublist (List.dedup_sublist _) hs
  have hn : ((l.insertionSort (· ≤ ·)).dedup).Nodup := List.nodup_dedup _
  refine List.pairwise_reverse.mpr ?_
  exact List.Pairwise.imp₂ (fun a b hle hne => lt_of_le_of_ne hle hne) hd hn

theorem mem_spec_member_order (l : List String) (s : String) :
    s ∈ spec_member_order l ↔ s ∈ l := by
  unfold spec_member_order
  rw [List.mem_reverse, List.mem_dedup]
  exact (List.perm_insertionSort _ l).mem_iff

theorem member_lines_eq_spec (fs : List MockedFunction) (g : RandState) :
    member_lines fs g = spec_member_order (render_funcs fs g).1 := by
  have h1 := member_lines_decreasing fs g
  have h2 := spec_member_order_decreasing (render_funcs fs g).1
  have hp : List.Perm (member_lines fs g) (spec_member_order (render_funcs fs g).1) := by
    refine (List.perm_ext_iff_of_nodup (member_lines_nodup fs g) ?_).mpr ?_
    · exact List.Pairwise.imp (fun h => (ne_of_lt h).symm) h2
    · intro s
      rw [mem_member_lines, mem_spec_member_order]
  exact List.eq_of_perm_of_sorted hp h1 h2

/-! ## The texts that the format strings produce -/

theorem ctor_text (f : MockedFunction) (g : RandState) (hc : f.is_ctor = true) :
    f.to_string g
      = ("Mock" ++ f.name ++ "(" ++ vec_join f.typed_args ", " ++ ") : " ++ f.name ++ "("
          ++ vec_join f.untyped_args ", " ++ ") \x7b\x7d", g) := by
  simp only [MockedFunction.to_string, hc, if_true]
  refine Prod.ext ?_ rfl
  apply String.ext
  simp only [String.data_append, List.append_assoc]
  rfl

set_option maxRecDepth 10000 in
theorem operator_text (f : MockedFunction) (g : RandState) (hc : f.is_ctor = false)
    (ho : (find f.name "operator").isSome = true) :
    f.to_string g
      = ("MOCK_METHOD" ++ format_uint f.typed_args.length ++ "(Operator"
          ++ format_uint ((rand g).1 % 65536) ++ ", " ++ f.type ++ "("
          ++ vec_join f.arg_types ", " ++ "));\n        virtual " ++ f.type ++ " " ++ f.name
          ++ "(" ++ vec_join f.typed_args ", " ++ ") \x7b return Operator"
          ++ format_uint ((rand g).1 % 65536) ++ "(" ++ vec_join f.untyped_args ", "
          ++ "); \x7d", (rand g).2) := by
  simp only [MockedFunction.to_string, hc, ho, if_true, Bool.false_eq_true, if_false]
  refine Prod.ext ?_ rfl
  apply String.ext
  simp only [String.data_append, List.append_assoc]
  rfl

theorem plain_text (f : MockedFunction) (g : RandState) (hc : f.is_ctor = false)
    (ho : find f.name "operator" = none) :
    f.to_string g
      = ("MOCK_METHOD" ++ format_uint f.typed_args.length ++ "(" ++ f.name ++ ", " ++ f.type
          ++ "(" ++ vec_join f.arg_types ", " ++ "));", g) := by
  simp only [MockedFunction.to_string, hc, ho, Option.isSome_none, Bool.false_eq_true, if_false]
  refine Prod.ext ?_ rfl
  apply String.ext
  simp only [String.data_append, List.append_assoc]
  rfl

set_option maxRecDepth 10000 in
theorem class_text (c : MockedClass) (g : RandState) (hn : c.name ≠ "") :
    c.to_string g
      = ("    " ++ c.templ ++ "class Mock" ++ c.name ++ " : public " ++ c.qualified_name
          ++ "\n    \x7b\n      public:\n        "
          ++ vec_join (member_lines c.funcs g) "\n        " ++ "\n    \x7d;\n",
        (render_funcs c.funcs g).2) := by
  simp only [MockedClass.to_string, hn, if_false]
  refine Prod.ext ?_ rfl
  apply String.ext
  simp only [String.data_append, List.append_assoc]
  rfl

theorem new_qualified_name (name : String) (ns tps : List String) :
    (MockedClass.new name ns tps).qualified_name = vec_join ns "::" ++ "::" ++ name := by
  apply String.ext
  have h : (MockedClass.new name ns tps).qualified_name.data
      = (vec_join ns "::").data ++ (':' :: ':' :: (name.data ++ [])) := rfl
  rw [h, List.append_nil]
  simp only [String.data_append, List.append_assoc]
  rfl

theorem new_templ_cons (name : String) (ns : List String) (p : String) (ps : List String) :
    (MockedClass.new name ns (p :: ps)).templ
      = "template<" ++ vec_join (p :: ps) ", " ++ ">\n    " := by
  simp only [MockedClass.new, List.length_cons, Nat.add_one_ne_zero, if_false]
  apply String.ext
  simp only [String.data_append, List.append_assoc]
  rfl

theorem mem_render_funcs_of_plain (f : MockedFunction) (fs : List MockedFunction)
    (g g' : RandState) (hc : f.is_ctor = false) (ho : find f.name "operator" = none)
    (hm : f ∈ fs) : (f.to_string g').1 ∈ (render_funcs fs g).1 := by
  induction fs generalizing g with
  | nil => simp at hm
  | cons x rest ih =>
    unfold render_funcs
    rcases List.mem_cons.mp hm with h | h
    · subst h
      rw [plain_text f g hc ho, plain_text f g' hc ho]
      exact List.mem_cons_self _ _
    · exact List.mem_cons_of_mem _ (ih _ h)

/-! ## Members whose conversion does not call `rand()` -/

theorem to_string_of_not_operator (f : MockedFunction) (g g' : RandState)
    (h : is_operator_member f = false) : f.to_string g = ((f.to_string g').1, g) := by
  unfold is_operator_member at h
  cases hc : f.is_ctor with
  | true => rw [ctor_text f g hc, ctor_text f g' hc]
  | false =>
    have ho : find f.name "operator" = none := by
      cases hf : find f.name "operator" with
      | none => rfl
      | some i => simp [hc, hf] at h
    rw [plain_text f g hc ho, plain_text f g' hc ho]

theorem render_funcs_append (fs1 fs2 : List MockedFunction) (g : RandState) :
    render_funcs (fs1 ++ fs2) g
      = ((render_funcs fs1 g).1 ++ (render_funcs fs2 (render_funcs fs1 g).2).1,
          (render_funcs fs2 (render_funcs fs1 g).2).2) := by
  induction fs1 generalizing g with
  | nil => simp [render_funcs]
  | cons f rest ih => simp [render_funcs, ih]

theorem render_funcs_of_no_operator (fs : List MockedFunction) (g g' : RandState)
    (h : ∀ f ∈ fs, is_operator_member f = false) :
    render_funcs fs g = (fs.map (fun f => (f.to_string g').1), g) := by
  induction fs with
  | nil => rfl
  | cons f rest ih =>
    have hf := to_string_of_not_operator f g g' (h f (List.mem_cons_self _ _))
    have hr := ih (fun x hx => h x (List.mem_cons_of_mem _ hx))
    unfold render_funcs
    rw [hf]
    simp only [hr, List.map_cons]

theorem mem_render_funcs_of_not_operator (f : MockedFunction) (fs : List MockedFunction)
    (g g' : RandState) (h : is_operator_member f = false) (hm : f ∈ fs) :
    (f.to_string g').1 ∈ (render_funcs fs g).1 := by
  induction fs generalizing g with
  | nil => simp at hm
  | cons x rest ih =>
    unfold render_funcs
    rcases List.mem_cons.mp hm with hx | hx
    · subst hx
      rw [to_string_of_not_operator f g g' h]
      exact List.mem_cons_self _ _
    · exact List.mem_cons_of_mem _ (ih _ hx)

theorem member_lines_congr (fs1 fs2 : List MockedFunction) (g1 g2 : RandState)
    (h : ∀ s, s ∈ (render_funcs fs1 g1).1 ↔ s ∈ (render_funcs fs2 g2).1) :
    member_lines fs1 g1 = member_lines fs2 g2 := by
  have hp : List.Perm (member_lines fs1 g1) (member_lines fs2 g2) := by
    refine (List.perm_ext_iff_of_nodup (member_lines_nodup fs1 g1)
      (member_lines_nodup fs2 g2)).mpr ?_
    intro s
    rw [mem_member_lines, mem_member_lines]
    exact h s
  exact List.eq_of_perm_of_sorted hp (member_lines_decreasing fs1 g1)
    (member_lines_decreasing fs2 g2)

theorem to_string_congr (c1 c2 : MockedClass) (g : RandState)
    (hname : c1.name = c2.name) (hq : c1.qualified_name = c2.qualified_name)
    (ht : c1.templ = c2.templ)
    (hl : member_lines c1.funcs g = member_lines c2.funcs g)
    (hg : (render_funcs c1.funcs g).2 = (render_funcs c2.funcs g).2) :
    c1.to_string g = c2.to_string g := by
  unfold MockedClass.to_string
  rw [hname, hq, ht, hl, hg]

/-! ## The constructor of `MockedFunction` -/

theorem typed_arg_text (t n : String) :
    format "{}{}{}" [t, if n = "" then "" else " ", n] = spec_typed_arg (t, n) := by
  apply String.ext
  have h : (format "{}{}{}" [t, if n = "" then "" else " ", n]).data
      = t.data ++ ((if n = "" then "" else " ").data ++ (n.data ++ [])) := rfl
  rw [h, List.append_nil]
  unfold spec_typed_arg
  by_cases hn : n = ""
  · simp [hn]
  · simp [hn, String.data_append]

theorem foldl_push_arg (cursor : CXCursor) (n : Nat) (f : MockedFunction) :
    (List.range n).foldl (MockedFunction.push_arg cursor) f
      = MockedFunction.mk f.is_ctor f.type f.name
          (f.arg_types ++ (List.range n).map (fun i => cursor.arg_type i))
          (f.typed_args
            ++ (List.range n).map (fun i => spec_typed_arg (cursor.arg_type i, cursor.arg_name i)))
          (f.untyped_args ++ (List.range n).map (fun i => cursor.arg_name i)) := by
  induction n with
  | zero => simp
  | succ n ih =>
    rw [List.range_succ, List.foldl_append, ih]
    simp [MockedFunction.push_arg, cxstring_to_string, typed_arg_text, List.map_append]

theorem map_range_getD {α β : Type} (l : List α) (d : α) (f : α → β) :
    (List.range l.length).map (fun i => f (l.getD i d)) = l.map f := by
  apply List.ext_getElem
  · simp
  · intro i h1 h2
    have hi : i < l.length := by simpa using h2
    simp [List.getD_eq_getElem?_getD, List.getElem?_eq_getElem hi]

theorem new_of_params (name ret : String) (params : List (String × String)) (is_ctor : Bool) :
    MockedFunction.new (cursor_of_params name ret params) is_ctor
      = MockedFunction.mk is_ctor (if is_ctor then "" else ret) name
          (params.map Prod.fst) (params.map spec_typed_arg) (params.map Prod.snd) := by
  unfold MockedFunction.new
  rw [foldl_push_arg]
  have hk : (max 0 (cursor_of_params name ret params).num_arguments).toNat = params.length := by
    simp [cursor_of_params]
  rw [hk]
  have h1 := map_range_getD params ("", "") Prod.fst
  have h2 := map_range_getD params ("", "") Prod.snd
  have h3 := map_range_getD params ("", "") spec_typed_arg
  simp only [List.getD_eq_getElem?_getD] at h1 h2 h3
  cases is_ctor <;> simp [cursor_of_params, cxstring_to_string, h1, h2, h3]

/-! ## Splitting texts at separators -/

theorem split_char (c : Char) (x y p q : List Char) (hx : c ∉ x) (hy : c ∉ y)
    (h : x ++ c :: p = y ++ c :: q) : x = y ∧ p = q := by
  induction x generalizing y with
  | nil =>
    cases y with
    | nil => simpa using h
    | cons b y =>
      simp only [List.nil_append, List.cons_append, List.cons.injEq] at h
      exact absurd (h.1 ▸ List.mem_cons_self _ _) hy
  | cons a x ih =>
    cases y with
    | nil =>
      simp only [List.nil_append, List.cons_append, List.cons.injEq] at h
      exact absurd (h.1 ▸ List.mem_cons_self _ _) hx
    | cons b y =>
      simp only [List.cons_append, List.cons.injEq] at h
      have := ih y (fun hm => hx (List.mem_cons_of_mem _ hm))
        (fun hm => hy (List.mem_cons_of_mem _ hm)) h.2
      exact ⟨by rw [h.1, this.1], this.2⟩

theorem split_left (c1 c2 : Char) (hne : c1 ≠ c2) (x y p q : List Char)
    (hx : ¬ ∃ pre post, x = pre ++ [c1, c2] ++ post)
    (hy : ¬ ∃ pre post, y = pre ++ [c1, c2] ++ post)
    (h : x ++ [c1, c2] ++ p = y ++ [c1, c2] ++ q) : x = y ∧ p = q := by
  induction x generalizing y with
  | nil =>
    cases y with
    | nil => simpa using h
    | cons b y =>
      exfalso
      cases y with
      | nil =>
        simp only [List.nil_append, List.cons_append, List.cons.injEq] at h
        exact hne (h.2.1.symm ▸ h.1 ▸ rfl)
      | cons d y =>
        simp only [List.nil_append, List.cons_append, List.cons.injEq] at h
        exact hy ⟨[], y, by simp [h.1, h.2.1]⟩
  | cons a x ih =>
    cases y with
    | nil =>
      exfalso
      cases x with
      | nil =>
        simp only [List.nil_append, List.cons_append, List.cons.injEq] at h
        exact hne (h.2.1 ▸ h.1.symm ▸ rfl)
      | cons d x =>
        simp only [List.nil_append, List.cons_append, List.cons.injEq] at h
        exact hx ⟨[], x, by simp [h.1, h.2.1]⟩
    | cons b y =>
      simp only [List.cons_append, List.cons.injEq] at h
      have hx2 : ¬ ∃ pre post, x = pre ++ [c1, c2] ++ post := by
        rintro ⟨pre, post, e⟩
        exact hx ⟨a :: pre, post, by simp [e]⟩
      have hy2 : ¬ ∃ pre post, y = pre ++ [c1, c2] ++ post := by
        rintro ⟨pre, post, e⟩
        exact hy ⟨b :: pre, post, by simp [e]⟩
      have := ih y hx2 hy2 (by simpa using h.2)
      exact ⟨by rw [h.1, this.1], this.2⟩

theorem split_right (c1 c2 : Char) (hne : c1 ≠ c2) (x y p q : List Char)
    (hx : ¬ ∃ pre post, x = pre ++ [c1, c2] ++ post)
    (hy : ¬ ∃ pre post, y = pre ++ [c1, c2] ++ post)
    (h : p ++ [c1, c2] ++ x = q ++ [c1, c2] ++ y) : p = q ∧ x = y := by
  have hr := congrArg List.reverse h
  simp only [List.reverse_append, List.reverse_cons, List.reverse_nil, List.nil_append,
    List.singleton_append, List.cons_append] at hr
  have hx2 : ¬ ∃ pre post, x.reverse = pre ++ [c2, c1] ++ post := by
    rintro ⟨pre, post, e⟩
    refine hx ⟨post.reverse, pre.reverse, ?_⟩
    have := congrArg List.reverse e
    simpa using this
  have hy2 : ¬ ∃ pre post, y.reverse = pre ++ [c2, c1] ++ post := by
    rintro ⟨pre, post, e⟩
    refine hy ⟨post.reverse, pre.reverse, ?_⟩
    have := congrArg List.reverse e
    simpa using this
  have := split_left c2 c1 (Ne.symm hne) x.reverse y.reverse p.reverse q.reverse hx2 hy2
    (by simpa using hr)
  exact ⟨List.reverse_injective this.2, List.reverse_injective this.1⟩

theorem no_sep_of_find (x : String) (h : find x ", " = none) :
    ¬ ∃ pre post, x.data = pre ++ [',', ' '] ++ post := by
  intro he
  have := (find_from_ne_none_iff [',', ' '] x.data 0).mpr he
  exact this h

theorem vec_join_concat (a x delim : String) (r : List String) :
    vec_join (a :: (r ++ [x])) delim = vec_join (a :: r) delim ++ delim ++ x := by
  induction r generalizing a with
  | nil => simp [vec_join]
  | cons b r ih =>
    have h := ih b
    simp only [List.cons_append, vec_join, List.append_eq] at h ⊢
    rw [h]
    simp only [String.append_assoc]

theorem join_tail_inj (r1 : List String) :
    ∀ (r2 : List String) (P1 P2 a c : String), r1.length = r2.length →
      (∀ x ∈ r1, find x ", " = none) → (∀ x ∈ r2, find x ", " = none) →
      P1 ++ vec_join (a :: r1) ", " = P2 ++ vec_join (c :: r2) ", " →
      r1 = r2 ∧ P1 ++ a = P2 ++ c := by
  induction r1 using List.reverseRecOn with
  | nil =>
    intro r2 P1 P2 a c hlen _ _ h
    have h2 : r2 = [] := List.length_eq_zero.mp hlen.symm
    subst h2
    exact ⟨rfl, by simpa [vec_join] using h⟩
  | append_singleton r1 x ih =>
    intro r2 P1 P2 a c hlen h1 h2 h
    rcases List.eq_nil_or_concat r2 with hr | ⟨r2, y, hr⟩
    · subst hr; simp at hlen
    · rw [List.concat_eq_append] at hr
      subst hr
      rw [vec_join_concat, vec_join_concat] at h
      have hd := congrArg String.data h
      simp only [String.data_append] at hd
      have hxs := no_sep_of_find x (h1 x (by simp))
      have hys := no_sep_of_find y (h2 y (by simp))
      have key := split_right ',' ' ' (by decide) x.data y.data
        (P1.data ++ (vec_join (a :: r1) ", ").data) (P2.data ++ (vec_join (c :: r2) ", ").data)
        hxs hys (by simpa [List.append_assoc] using hd)
      have hxy : x = y := String.ext key.2
      have hlen2 : r1.length = r2.length := by simpa using hlen
      have hrec := ih r2 P1 P2 a c hlen2
        (fun z hz => h1 z (by simp [hz])) (fun z hz => h2 z (by simp [hz]))
        (String.ext (by simpa [String.data_append] using key.1))
      exact ⟨by rw [hrec.1, hxy], hrec.2⟩

theorem string_append_right_cancel (a b s : String) (h : a ++ s = b ++ s) : a = b := by
  apply String.ext
  have hd := congrArg String.data h
  simp only [String.data_append] at hd
  exact List.append_cancel_right hd

theorem string_append_left_cancel (s a b : String) (h : s ++ a = s ++ b) : a = b := by
  apply String.ext
  have hd := congrArg String.data h
  simp only [String.data_append] at hd
  exact List.append_cancel_left hd

theorem vec_join_cons_eq (l : List String) (d : String) :
    ∃ Q : String, ∀ x : String, vec_join (x :: l) d = x ++ Q := by
  cases l with
  | nil => exact ⟨"", fun x => by simp [vec_join]⟩
  | cons y rest => exact ⟨d ++ vec_join (y :: rest) d, fun x => by simp [vec_join, String.append_assoc]⟩

theorem typed_arg_data (t n : String) :
    (spec_typed_arg (t, n)).data = t.data ++ ((if n = "" then [] else [' ']) ++ n.data) := by
  unfold spec_typed_arg
  by_cases hn : n = ""
  · simp [hn]
  · simp [hn, String.data_append]

theorem first_name_eq (A R t n1 n2 : String)
    (h : A ++ (spec_typed_arg (t, n1) ++ R ++ n1) = A ++ (spec_typed_arg (t, n2) ++ R ++ n2)) :
    n1 = n2 := by
  have h' := string_append_left_cancel _ _ _ h
  have hd := congrArg String.data h'
  simp only [String.data_append, typed_arg_data, List.append_assoc] at hd
  have hd2 := List.append_cancel_left hd
  have hlen := congrArg List.length hd2
  simp only [List.length_append] at hlen
  by_cases e1 : n1 = ""
  · by_cases e2 : n2 = ""
    · rw [e1, e2]
    · exfalso
      have : n1.data.length = 0 := by rw [e1]; rfl
      simp [e1, e2] at hlen
      omega
  · by_cases e2 : n2 = ""
    · exfalso
      simp [e1, e2] at hlen
      omega
    · simp only [e1, e2, if_false, List.length_cons, List.length_nil] at hlen hd2
      have hl : n1.data.length = n2.data.length := by omega
      have hl2 : ([' '] ++ n1.data).length = ([' '] ++ n2.data).length := by simp [hl]
      have := List.append_inj (by simpa [List.append_assoc] using hd2) hl2
      exact String.ext (List.append_cancel_left this.1)

theorem eq_of_map_fst_snd {α β : Type} (l1 l2 : List (α × β))
    (h1 : l1.map Prod.fst = l2.map Prod.fst) (h2 : l1.map Prod.snd = l2.map Prod.snd) :
    l1 = l2 := by
  induction l1 generalizing l2 with
  | nil =>
    cases l2 with
    | nil => rfl
    | cons b l2 => simp at h1
  | cons a l1 ih =>
    cases l2 with
    | nil => simp at h1
    | cons b l2 =>
      simp only [List.map_cons, List.cons.injEq] at h1 h2
      rw [ih l2 h1.2 h2.2, Prod.ext h1.1 h2.1]

theorem ctor_names_eq (name : String) (params1 params2 : List (String × String))
    (htypes : params1.map Prod.fst = params2.map Prod.fst)
    (h1 : ∀ p ∈ params1, find p.2 ", " = none) (h2 : ∀ p ∈ params2, find p.2 ", " = none)
    (h : "Mock" ++ name ++ "(" ++ vec_join (params1.map spec_typed_arg) ", " ++ ") : " ++ name
          ++ "(" ++ vec_join (params1.map Prod.snd) ", " ++ ") \x7b\x7d"
        = "Mock" ++ name ++ "(" ++ vec_join (params2.map spec_typed_arg) ", " ++ ") : " ++ name
          ++ "(" ++ vec_join (params2.map Prod.snd) ", " ++ ") \x7b\x7d") :
    params1 = params2 := by
  have h' := string_append_right_cancel _ _ _ h
  cases params1 with
  | nil =>
    cases params2 with
    | nil => rfl
    | cons b l2 => simp at htypes
  | cons p1 rest1 =>
    cases params2 with
    | nil => simp at htypes
    | cons p2 rest2 =>
      obtain ⟨t1, n1⟩ := p1
      obtain ⟨t2, n2⟩ := p2
      simp only [List.map_cons, List.cons.injEq] at htypes h'
      obtain ⟨ht, hrt⟩ := htypes
      subst ht
      have hlen : (rest1.map Prod.snd).length = (rest2.map Prod.snd).length := by
        have := congrArg List.length hrt
        simpa using this
      have key := join_tail_inj (rest1.map Prod.snd) (rest2.map Prod.snd) _ _ n1 n2 hlen
        (fun x hx => by
          obtain ⟨p, hp, rfl⟩ := List.mem_map.mp hx
          exact h1 p (List.mem_cons_of_mem _ hp))
        (fun x hx => by
          obtain ⟨p, hp, rfl⟩ := List.mem_map.mp hx
          exact h2 p (List.mem_cons_of_mem _ hp))
        h'
      have hrest : rest1 = rest2 := eq_of_map_fst_snd rest1 rest2 hrt key.1
      subst hrest
      obtain ⟨Q, hQ⟩ := vec_join_cons_eq (rest1.map spec_typed_arg) ", "
      have k2 := key.2
      rw [hQ, hQ] at k2
      have hn : n1 = n2 := by
        apply first_name_eq ("Mock" ++ name ++ "(") (Q ++ ") : " ++ name ++ "(") t1 n1 n2
        simpa only [String.append_assoc] using k2
      rw [hn]

theorem not_mem_of_find (x : String) (c : Char) (h : find x (String.singleton c) = none) :
    c ∉ x.data := by
  intro hm
  obtain ⟨pre, post, e⟩ := List.append_of_mem hm
  have := (find_from_ne_none_iff [c] x.data 0).mpr ⟨pre, post, by simp [e]⟩
  exact this h

theorem not_mem_format_uint (n : Nat) (c : Char) (hc : c.isDigit = false) :
    c ∉ (format_uint n).data := by
  intro hm
  rw [format_uint_digits n c hm] at hc
  exact absurd hc (by decide)

theorem vec_join_inj (l1 l2 : List String) (hlen : l1.length = l2.length)
    (h1 : ∀ x ∈ l1, find x ", " = none) (h2 : ∀ x ∈ l2, find x ", " = none)
    (h : vec_join l1 ", " = vec_join l2 ", ") : l1 = l2 := by
  cases l1 with
  | nil =>
    cases l2 with
    | nil => rfl
    | cons c r2 => simp at hlen
  | cons a r1 =>
    cases l2 with
    | nil => simp at hlen
    | cons c r2 =>
      have key := join_tail_inj r1 r2 "" "" a c (by simpa using hlen)
        (fun x hx => h1 x (List.mem_cons_of_mem _ hx))
        (fun x hx => h2 x (List.mem_cons_of_mem _ hx)) (by rw [h])
      rw [key.1, string_append_left_cancel _ _ _ key.2]

theorem plain_text_inj (n1 n2 : Nat) (name1 name2 ty1 ty2 j1 j2 : String)
    (hn1 : find name1 ", " = none) (hn2 : find name2 ", " = none)
    (ht1 : find ty1 "(" = none) (ht2 : find ty2 "(" = none)
    (h : "MOCK_METHOD" ++ format_uint n1 ++ "(" ++ name1 ++ ", " ++ ty1 ++ "(" ++ j1 ++ "));"
      = "MOCK_METHOD" ++ format_uint n2 ++ "(" ++ name2 ++ ", " ++ ty2 ++ "(" ++ j2 ++ "));") :
    n1 = n2 ∧ name1 = name2 ∧ ty1 = ty2 ∧ j1 = j2 := by
  have h' := string_append_right_cancel _ _ _ h
  simp only [String.append_assoc] at h'
  have hd := congrArg String.data (string_append_left_cancel _ _ _ h')
  simp only [String.data_append] at hd
  have e1 : ("(" : String).data = ['('] := rfl
  have e2 : (", " : String).data = [',', ' '] := rfl
  simp only [e1, e2, List.singleton_append] at hd
  have s1 := split_char '(' _ _ _ _ (not_mem_format_uint n1 '(' (by decide))
    (not_mem_format_uint n2 '(' (by decide)) hd
  have s2 := split_left ',' ' ' (by decide) name1.data name2.data _ _
    (no_sep_of_find name1 hn1) (no_sep_of_find name2 hn2)
    (by simpa [List.append_assoc] using s1.2)
  have s3 := split_char '(' _ _ _ _ (not_mem_of_find ty1 '(' ht1) (not_mem_of_find ty2 '(' ht2)
    s2.2
  exact ⟨format_uint_inj n1 n2 (String.ext s1.1), String.ext s2.1, String.ext s3.1,
    String.ext s3.2⟩

theorem operator_text_surrogate (f : MockedFunction) (g : RandState) (hc : f.is_ctor = false)
    (ho : find f.name "operator" ≠ none) :
    f.to_string g
      = ("MOCK_METHOD" ++ format_uint f.typed_args.length ++ "(" ++ surrogate_name g ++ ", "
          ++ f.type ++ "(" ++ vec_join f.arg_types ", " ++ "));" ++ "\n        virtual "
          ++ f.type ++ " " ++ f.name ++ "(" ++ vec_join f.typed_args ", " ++ ") \x7b return "
          ++ surrogate_name g ++ "(" ++ vec_join f.untyped_args ", " ++ "); \x7d",
        (rand g).2) := by
  have hs : (find f.name "operator").isSome = true := by
    cases h : find f.name "operator" with
    | none => exact absurd h ho
    | some i => rfl
  rw [operator_text f g hc hs]
  refine Prod.ext ?_ rfl
  unfold surrogate_name
  apply String.ext
  simp only [String.data_append, List.append_assoc]
  rfl

theorem not_mem_vec_join (c : Char) (l : List String) (d : String) (hd : c ∉ d.data)
    (hl : ∀ x ∈ l, c ∉ x.data) : c ∉ (vec_join l d).data := by
  induction l with
  | nil => simp [vec_join]
  | cons x rest ih =>
    cases rest with
    | nil => simpa [vec_join] using hl x (List.mem_cons_self _ _)
    | cons y rest =>
      have h1 := hl x (List.mem_cons_self _ _)
      have h2 := ih (fun z hz => hl z (List.mem_cons_of_mem _ hz))
      simp only [vec_join, String.data_append, List.mem_append, not_or]
      exact ⟨⟨h1, hd⟩, h2⟩

/-! ## Claims -/

/-- C1: a member with `is_ctor` set converts to the forwarding constructor
`Mock<name>(<typed_args>) : <name>(<untyped_args>) {}` whatever its name and return type field
are, and leaves the random generator alone; for `Foo` with `int x, int y` the text is exactly
`MockFoo(int x, int y) : Foo(x, y) {}`. -/
theorem C1_ctor_to_string (ty name : String) (ats tas uas : List String) (g : RandState) :
    (MockedFunction.mk true ty name ats tas uas).to_string g
      = ("Mock" ++ name ++ "(" ++ vec_join tas ", " ++ ") : " ++ name ++ "("
          ++ vec_join uas ", " ++ ") \x7b\x7d", g)
    ∧ ((MockedFunction.mk true ty "Foo" ats ["int x", "int y"] ["x", "y"]).to_string g).1
      = "MockFoo(int x, int y) : Foo(x, y) \x7b\x7d" := by
  refine ⟨ctor_text _ g rfl, ?_⟩
  rw [ctor_text _ g rfl]
  rfl

/-- C2: a member that is no constructor and whose name does not contain `operator`, with its
three argument lists of one length `n`, converts to
`MOCK_METHOD<n>(<name>, <type>(<arg_types>));` and leaves the random generator alone; for
`compute` returning `double` with argument types `int, float` the text is exactly
`MOCK_METHOD2(compute, double(int, float));`. -/
theorem C2_plain_to_string (ty name : String) (ats tas uas : List String) (n : Nat) (g : RandState)
    (hop : find name "operator" = none)
    (h1 : ats.length = n) (h2 : tas.length = n) (h3 : uas.length = n) :
    (MockedFunction.mk false ty name ats tas uas).to_string g
      = ("MOCK_METHOD" ++ format_uint n ++ "(" ++ name ++ ", " ++ ty ++ "("
          ++ vec_join ats ", " ++ "));", g)
    ∧ format_uint n = format_uint ats.length
    ∧ ∀ t1 t2 u1 u2 : String,
        ((MockedFunction.mk false "double" "compute" ["int", "float"] [t1, t2] [u1, u2]).to_string
          g).1 = "MOCK_METHOD2(compute, double(int, float));" := by
  refine ⟨?_, by rw [h1], fun t1 t2 u1 u2 => ?_⟩
  · subst h2
    exact plain_text _ g rfl hop
  · rw [plain_text (MockedFunction.mk false "double" "compute" ["int", "float"] [t1, t2]
      [u1, u2]) g rfl rfl]
    simp only [List.length_cons, List.length_nil, Nat.zero_add, Nat.reduceAdd]
    rfl

theorem C2_plain_to_string_witness :
    find "compute" "operator" = none
    ∧ (MockedFunction.mk false "double" "compute" ["int", "float"] ["int a", "float b"]
        ["a", "b"]).to_string (fun _ => 0)
      = ("MOCK_METHOD" ++ format_uint 2 ++ "(" ++ "compute" ++ ", " ++ "double" ++ "("
          ++ vec_join ["int", "float"] ", " ++ "));", fun _ => 0) :=
  ⟨by decide,
   (C2_plain_to_string "double" "compute" ["int", "float"] ["int a", "float b"] ["a", "b"] 2
      (fun _ => 0) (by decide) rfl rfl rfl).1⟩

/-- C3: a member that is no constructor and whose name contains `operator` converts, with `r`
the value `rand()` returns and `n = r mod 2^16`, to the declaration
`MOCK_METHOD<k>(Operator<n>, <type>(<arg_types>));` (`k` the number of arguments) followed by
the override `virtual <type> <name>(<typed_args>) { return Operator<n>(<untyped_args>); }`:
the surrogate name is `Operator` followed by decimal digits only (at least one), it is the
same in the declaration and in the forwarding call, and the call passes `untyped_args` in
order. One value is taken from the generator. For `operator+` taking `int x` and returning
`Foo` the declaration is a `MOCK_METHOD1`. -/
theorem C3_operator_to_string (ty name : String) (ats tas uas : List String) (g : RandState)
    (hop : find name "operator" ≠ none) :
    (MockedFunction.mk false ty name ats tas uas).to_string g
      = ("MOCK_METHOD" ++ format_uint tas.length ++ "("
          ++ ("Operator" ++ format_uint ((rand g).1 % 65536)) ++ ", " ++ ty ++ "("
          ++ vec_join ats ", " ++ "));" ++ "\n        virtual " ++ ty ++ " " ++ name ++ "("
          ++ vec_join tas ", " ++ ") \x7b return "
          ++ ("Operator" ++ format_uint ((rand g).1 % 65536)) ++ "("
          ++ vec_join uas ", " ++ "); \x7d", (rand g).2)
    ∧ (∀ c ∈ (format_uint ((rand g).1 % 65536)).data, c.isDigit = true)
    ∧ format_uint ((rand g).1 % 65536) ≠ ""
    ∧ ((MockedFunction.mk false "Foo" "operator+" ["int"] ["int x"] ["x"]).to_string g).1
      = "MOCK_METHOD1(" ++ ("Operator" ++ format_uint ((rand g).1 % 65536)) ++ ", Foo(int));"
          ++ "\n        virtual Foo operator+(int x) \x7b return "
          ++ ("Operator" ++ format_uint ((rand g).1 % 65536)) ++ "(x); \x7d" := by
  have hs : (find name "operator").isSome = true := by
    cases h : find name "operator" with
    | none => exact absurd h hop
    | some i => rfl
  refine ⟨?_, format_uint_digits _, format_uint_ne_empty _, ?_⟩
  · rw [operator_text _ g rfl hs]
    refine Prod.ext ?_ rfl
    apply String.ext
    simp only [String.data_append, List.append_assoc]
    rfl
  · rw [operator_text (MockedFunction.mk false "Foo" "operator+" ["int"] ["int x"] ["x"]) g
      rfl rfl]
    simp only [List.length_cons, List.length_nil, Nat.zero_add]
    generalize format_uint ((rand g).1 % 65536) = d
    apply String.ext
    simp only [String.data_append, List.append_assoc]
    rfl

theorem C3_operator_to_string_witness :
    find "operator+" "operator" ≠ none
    ∧ (∀ c ∈ (format_uint ((rand (fun _ => 70000)).1 % 65536)).data, c.isDigit = true) :=
  ⟨by decide,
   (C3_operator_to_string "Foo" "operator+" ["int"] ["int x"] ["x"] (fun _ => 70000)
      (by decide)).2.1⟩

/-- C4: for a class with a non-empty name the member lines of the rendered block are the
converted members sorted, deduplicated and reversed: the sequence is strictly decreasing in
the order of strings, holds no string twice, and has exactly the converted members of `funcs`
as its elements. -/
theorem C4_member_lines_order (c : MockedClass) (g : RandState) (hn : c.name ≠ "") :
    (c.to_string g).1
      = "    " ++ c.templ ++ "class Mock" ++ c.name ++ " : public " ++ c.qualified_name
          ++ "\n    \x7b\n      public:\n        "
          ++ vec_join (member_lines c.funcs g) "\n        " ++ "\n    \x7d;\n"
    ∧ member_lines c.funcs g = (unique (sort (render_funcs c.funcs g).1)).reverse
    ∧ member_lines c.funcs g = spec_member_order (render_funcs c.funcs g).1
    ∧ (member_lines c.funcs g).Pairwise (fun a b => b < a)
    ∧ (member_lines c.funcs g).Pairwise (fun a b => str_lt b a = true)
    ∧ (member_lines c.funcs g).Nodup
    ∧ ∀ s, s ∈ member_lines c.funcs g ↔ s ∈ (render_funcs c.funcs g).1 := by
  refine ⟨?_, rfl, member_lines_eq_spec _ _, member_lines_decreasing _ _, ?_,
    member_lines_nodup _ _, mem_member_lines _ _⟩
  · rw [class_text c g hn]
  · exact List.Pairwise.imp (fun h => (str_lt_iff _ _).mpr h) (member_lines_decreasing _ _)

theorem C4_member_lines_order_witness :
    (MockedClass.mk "Foo" "ns::Foo" ""
      [MockedFunction.mk false "int" "f" ["int"] ["int x"] ["x"],
       MockedFunction.mk false "int" "g" [] [] [],
       MockedFunction.mk false "int" "f" ["int"] ["int y"] ["y"]]).name ≠ ""
    ∧ member_lines
        [MockedFunction.mk false "int" "f" ["int"] ["int x"] ["x"],
         MockedFunction.mk false "int" "g" [] [] [],
         MockedFunction.mk false "int" "f" ["int"] ["int y"] ["y"]] (fun _ => 0)
      = ["MOCK_METHOD1(f, int(int));", "MOCK_METHOD0(g, int());"]
    ∧ (member_lines
        (MockedClass.mk "Foo" "ns::Foo" ""
          [MockedFunction.mk false "int" "f" ["int"] ["int x"] ["x"],
           MockedFunction.mk false "int" "g" [] [] [],
           MockedFunction.mk false "int" "f" ["int"] ["int y"] ["y"]]).funcs
        (fun _ => 0)).Nodup :=
  ⟨by decide, by decide,
   (C4_member_lines_order
      (MockedClass.mk "Foo" "ns::Foo" ""
        [MockedFunction.mk false "int" "f" ["int"] ["int x"] ["x"],
         MockedFunction.mk false "int" "g" [] [] [],
         MockedFunction.mk false "int" "f" ["int"] ["int y"] ["y"]])
      (fun _ => 0) (by decide)).2.2.2.2.2.1⟩

/-- C5: a class whose name is empty converts to the empty string, whatever its qualified
name, template header and members are; no member is converted, so the random generator is
left as it was. -/
theorem C5_empty_name_to_string (q t : String) (fs : List MockedFunction) (g : RandState) :
    (MockedClass.mk "" q t fs).to_string g = ("", g) :=
  rfl

/-- C6, as the claim states it, fails: with no enclosing namespace the qualified name of `Foo`
is `::Foo`, not `Foo`. -/
theorem C6_counterexample :
    (MockedClass.new "Foo" [] []).qualified_name = "::Foo"
    ∧ (MockedClass.new "Foo" [] []).qualified_name ≠ "Foo" := by
  decide

/-- C6, amended: constructing a class with an empty namespace list yields the qualified name
`::` followed by the simple name (the empty join, the separator the constructor always writes,
the name), for every name and template-parameter list; the `name` field is the simple name;
and for no namespace list at all is the qualified name equal to the simple name. -/
theorem C6_qualified_name_no_namespace (name : String) (tps : List String) :
    (MockedClass.new name [] tps).qualified_name = "::" ++ name
    ∧ (MockedClass.new name [] tps).name = name
    ∧ ∀ ns : List String, (MockedClass.new name ns tps).qualified_name ≠ name := by
  refine ⟨?_, rfl, ?_⟩
  · rw [new_qualified_name]
    apply String.ext
    simp only [String.data_append, List.append_assoc]
    rfl
  · intro ns h
    have hl := congrArg String.length h
    simp only [new_qualified_name, String.length_append] at hl
    have h2 : "::".length = 2 := rfl
    omega

/-- C7, as the claim states it, fails for members whose name contains `operator`: two
`operator+` members with the same name, return type and argument types, differing in the
parameter name only, convert to different texts even for the same random value, and a class
holding both renders two member lines. -/
theorem C7_counterexample :
    (MockedFunction.mk false "Foo" "operator+" ["int"] ["int x"] ["x"]).is_ctor = false
    ∧ (MockedFunction.mk false "Foo" "operator+" ["int"] ["int y"] ["y"]).is_ctor = false
    ∧ ((MockedFunction.mk false "Foo" "operator+" ["int"] ["int x"] ["x"]).to_string
        (fun _ => 7)).1
      = "MOCK_METHOD1(Operator7, Foo(int));\n        virtual Foo operator+(int x) \x7b return Operator7(x); \x7d"
    ∧ ((MockedFunction.mk false "Foo" "operator+" ["int"] ["int y"] ["y"]).to_string
        (fun _ => 7)).1
      = "MOCK_METHOD1(Operator7, Foo(int));\n        virtual Foo operator+(int y) \x7b return Operator7(y); \x7d"
    ∧ ((MockedFunction.mk false "Foo" "operator+" ["int"] ["int x"] ["x"]).to_string
        (fun _ => 7)).1
      ≠ ((MockedFunction.mk false "Foo" "operator+" ["int"] ["int y"] ["y"]).to_string
        (fun _ => 7)).1
    ∧ (member_lines
        [MockedFunction.mk false "Foo" "operator+" ["int"] ["int x"] ["x"],
         MockedFunction.mk false "Foo" "operator+" ["int"] ["int y"] ["y"]]
        (fun _ => 7)).length = 2 := by
  decide

/-- C7, amended: two members that are no constructors, whose name does not contain
`operator`, each with its three argument lists of equal length, and that have the same name,
return type and argument types, convert to the same text whatever their parameter names and
whatever the random generator; a class holding both renders exactly one member line with that
text. -/
theorem C7_same_signature_same_text (a b : MockedFunction)
    (ha : a.is_ctor = false) (hb : b.is_ctor = false)
    (hop : find a.name "operator" = none)
    (hla : a.arg_types.length = a.typed_args.length
      ∧ a.typed_args.length = a.untyped_args.length)
    (hlb : b.arg_types.length = b.typed_args.length
      ∧ b.typed_args.length = b.untyped_args.length)
    (hname : a.name = b.name) (htype : a.type = b.type)
    (hargs : a.arg_types = b.arg_types) :
    (∀ g1 g2 : RandState, (a.to_string g1).1 = (b.to_string g2).1)
    ∧ ∀ (fs : List MockedFunction) (g : RandState), a ∈ fs → b ∈ fs →
        (member_lines fs g).count (a.to_string g).1 = 1 := by
  have hopb : find b.name "operator" = none := hname ▸ hop
  have hlen : a.typed_args.length = b.typed_args.length := by
    rw [← hla.1, ← hlb.1, hargs]
  refine ⟨fun g1 g2 => ?_, fun fs g hma _ => ?_⟩
  · rw [plain_text a g1 ha hop, plain_text b g2 hb hopb, hname, htype, hargs, hlen]
  · exact List.count_eq_one_of_mem (member_lines_nodup fs g)
      ((mem_member_lines fs g _).mpr (mem_render_funcs_of_plain a fs g g ha hop hma))

theorem C7_same_signature_same_text_witness :
    find "f" "operator" = none
    ∧ member_lines
        [MockedFunction.mk false "int" "f" ["int"] ["int x"] ["x"],
         MockedFunction.mk false "int" "f" ["int"] ["int y"] ["y"]] (fun _ => 0)
      = ["MOCK_METHOD1(f, int(int));"]
    ∧ (member_lines
        [MockedFunction.mk false "int" "f" ["int"] ["int x"] ["x"],
         MockedFunction.mk false "int" "f" ["int"] ["int y"] ["y"]] (fun _ => 0)).count
        ((MockedFunction.mk false "int" "f" ["int"] ["int x"] ["x"]).to_string (fun _ => 0)).1
      = 1 :=
  ⟨by decide, by decide,
   (C7_same_signature_same_text
      (MockedFunction.mk false "int" "f" ["int"] ["int x"] ["x"])
      (MockedFunction.mk false "int" "f" ["int"] ["int y"] ["y"])
      rfl rfl (by decide) ⟨rfl, rfl⟩ ⟨rfl, rfl⟩ rfl rfl rfl).2
      [MockedFunction.mk false "int" "f" ["int"] ["int x"] ["x"],
       MockedFunction.mk false "int" "f" ["int"] ["int y"] ["y"]] (fun _ => 0)
      (List.mem_cons_self _ _) (List.mem_cons_of_mem _ (List.mem_cons_self _ _))⟩

/-- C8: for a non-empty name, a class constructed with a non-empty template-parameter list
has the header `template<P1, ..., Pn>` followed by a newline and four blanks, and its text
starts with four blanks, that header and then at once `class Mock<name>`; a class constructed
with an empty list has an empty header and its text starts `    class Mock<name>`. -/
theorem C8_template_header (name : String) (ns : List String) (p : String) (ps : List String)
    (fs : List MockedFunction) (g : RandState) (hn : name ≠ "") :
    (MockedClass.new name ns (p :: ps)).templ = "template<" ++ vec_join (p :: ps) ", " ++ ">\n    "
    ∧ (∃ rest : String,
        ({ MockedClass.new name ns (p :: ps) with funcs := fs }.to_string g).1
          = "    template<" ++ vec_join (p :: ps) ", " ++ ">\n    class Mock" ++ name ++ rest)
    ∧ (MockedClass.new name ns []).templ = ""
    ∧ (∃ rest : String,
        ({ MockedClass.new name ns [] with funcs := fs }.to_string g).1
          = "    class Mock" ++ name ++ rest) := by
  refine ⟨new_templ_cons name ns p ps, ⟨" : public " ++ (vec_join ns "::" ++ "::" ++ name)
      ++ "\n    \x7b\n      public:\n        " ++ vec_join (member_lines fs g) "\n        "
      ++ "\n    \x7d;\n", ?_⟩, rfl,
    ⟨" : public " ++ (vec_join ns "::" ++ "::" ++ name)
      ++ "\n    \x7b\n      public:\n        " ++ vec_join (member_lines fs g) "\n        "
      ++ "\n    \x7d;\n", ?_⟩⟩
  · have h := class_text { MockedClass.new name ns (p :: ps) with funcs := fs } g hn
    rw [h]
    simp only [new_templ_cons, new_qualified_name]
    apply String.ext
    simp only [String.data_append, List.append_assoc]
    rfl
  · have h := class_text { MockedClass.new name ns [] with funcs := fs } g hn
    rw [h]
    simp only [new_qualified_name]
    apply String.ext
    simp only [String.data_append, List.append_assoc]
    rfl

theorem C8_template_header_witness :
    "Foo" ≠ ""
    ∧ (MockedClass.new "Foo" ["a"] ["typename T", "int N"]).templ
      = "template<" ++ vec_join ["typename T", "int N"] ", " ++ ">\n    " :=
  ⟨by decide,
   (C8_template_header "Foo" ["a"] "typename T" ["int N"] [] (fun _ => 0) (by decide)).1⟩

/-- C9: constructing a class with a non-empty namespace list `n1, ..., nk` (outermost first)
yields the qualified name `n1::...::nk::name`, each namespace followed by `::` and then the
simple name; the `name` field is the simple name; namespaces `a`, `b` and name `Foo` give
`a::b::Foo`. -/
theorem C9_qualified_name_namespaces (name n : String) (ns tps : List String) :
    (MockedClass.new name (n :: ns) tps).qualified_name = spec_qualified_name (n :: ns) name
    ∧ (MockedClass.new name (n :: ns) tps).name = name
    ∧ (MockedClass.new "Foo" ["a", "b"] tps).qualified_name = "a::b::Foo" := by
  refine ⟨?_, rfl, ?_⟩
  swap
  · rw [new_qualified_name]
    rfl
  rw [new_qualified_name]
  induction ns generalizing n with
  | nil => simp [vec_join, spec_qualified_name]
  | cons m rest ih =>
    have h := ih m
    simp only [spec_qualified_name, List.foldr_cons] at h ⊢
    rw [← h]
    simp only [vec_join, String.append_assoc]

/-- C10: a class with a non-empty name converts to four blanks, the template header,
`class Mock<name> : public <qualified_name>`, an opening brace line, a `public:` line, the
member lines (the converted members sorted, deduplicated and reversed) each on a line of its
own, and the closing `};` line; the generator is left as the conversions of the members
leave it. -/
theorem C10_class_to_string (c : MockedClass) (g : RandState) (hn : c.name ≠ "") :
    c.to_string g
      = ("    " ++ c.templ ++ "class Mock" ++ c.name ++ " : public " ++ c.qualified_name
          ++ "\n    \x7b\n      public:\n        "
          ++ vec_join (spec_member_order (render_funcs c.funcs g).1) "\n        "
          ++ "\n    \x7d;\n", (render_funcs c.funcs g).2) := by
  rw [class_text c g hn, member_lines_eq_spec]

theorem C10_class_to_string_witness :
    (MockedClass.mk "Foo" "a::Foo" ""
      [MockedFunction.mk false "int" "f" ["int"] ["int x"] ["x"],
       MockedFunction.mk true "" "Foo" [] [] []]).name ≠ ""
    ∧ ((MockedClass.mk "Foo" "a::Foo" ""
      [MockedFunction.mk false "int" "f" ["int"] ["int x"] ["x"],
       MockedFunction.mk true "" "Foo" [] [] []]).to_string (fun _ => 0)).1
      = "    class MockFoo : public a::Foo\n    \x7b\n      public:\n        MockFoo() : Foo() \x7b\x7d\n        MOCK_METHOD1(f, int(int));\n    \x7d;\n"
    ∧ ((MockedClass.mk "Foo" "a::Foo" ""
      [MockedFunction.mk false "int" "f" ["int"] ["int x"] ["x"],
       MockedFunction.mk true "" "Foo" [] [] []]).to_string (fun _ => 0)).1
      = ("    " ++ "" ++ "class Mock" ++ "Foo" ++ " : public " ++ "a::Foo"
          ++ "\n    \x7b\n      public:\n        "
          ++ vec_join (spec_member_order (render_funcs
              [MockedFunction.mk false "int" "f" ["int"] ["int x"] ["x"],
               MockedFunction.mk true "" "Foo" [] [] []] (fun _ => 0)).1) "\n        "
          ++ "\n    \x7d;\n") :=
  ⟨by decide, by decide,
   congrArg Prod.fst (C10_class_to_string
      (MockedClass.mk "Foo" "a::Foo" ""
        [MockedFunction.mk false "int" "f" ["int"] ["int x"] ["x"],
         MockedFunction.mk true "" "Foo" [] [] []])
      (fun _ => 0) (by decide))⟩

/-- C11: two classes with the same name, qualified name and template header whose member
lists are permutations of each other and hold no operator member convert to the same text,
from whatever generator each conversion starts, and leave the generator as it was. -/
theorem C11_order_independent (c1 c2 : MockedClass)
    (hname : c1.name = c2.name) (hq : c1.qualified_name = c2.qualified_name)
    (ht : c1.templ = c2.templ) (hperm : c1.funcs.Perm c2.funcs)
    (hno : ∀ f ∈ c1.funcs, is_operator_member f = false) :
    (∀ g : RandState, c1.to_string g = c2.to_string g)
    ∧ (∀ g1 g2 : RandState, (c1.to_string g1).1 = (c2.to_string g2).1)
    ∧ (∀ g : RandState, (c1.to_string g).2 = g) := by
  have hno2 : ∀ f ∈ c2.funcs, is_operator_member f = false :=
    fun f hf => hno f (hperm.mem_iff.mpr hf)
  have hsame : ∀ g : RandState, c1.to_string g = c2.to_string g := by
    intro g
    have h1 := render_funcs_of_no_operator c1.funcs g g hno
    have h2 := render_funcs_of_no_operator c2.funcs g g hno2
    refine to_string_congr c1 c2 g hname hq ht (member_lines_congr _ _ g g ?_) ?_
    · intro s
      rw [h1, h2]
      exact (hperm.map _).mem_iff
    · rw [h1, h2]
  have hstate : ∀ g : RandState, (c1.to_string g).2 = g := by
    intro g
    unfold MockedClass.to_string
    split
    · rfl
    · rw [render_funcs_of_no_operator c1.funcs g g hno]
  have hindep : ∀ g1 g2 : RandState, (c1.to_string g1).1 = (c1.to_string g2).1 := by
    intro g1 g2
    unfold MockedClass.to_string
    split
    · rfl
    · have hl : member_lines c1.funcs g1 = member_lines c1.funcs g2 := by
        refine member_lines_congr _ _ g1 g2 fun s => ?_
        rw [render_funcs_of_no_operator c1.funcs g1 g1 hno,
          render_funcs_of_no_operator c1.funcs g2 g1 hno]
      simp only [hl]
  exact ⟨hsame, fun g1 g2 => (hindep g1 g2).trans (congrArg Prod.fst (hsame g2)), hstate⟩

theorem C11_order_independent_witness :
    (∀ f ∈ (MockedClass.mk "Foo" "a::Foo" ""
        [MockedFunction.mk false "int" "f" ["int"] ["int x"] ["x"],
         MockedFunction.mk true "" "Foo" [] [] []]).funcs, is_operator_member f = false)
    ∧ (MockedClass.mk "Foo" "a::Foo" ""
        [MockedFunction.mk false "int" "f" ["int"] ["int x"] ["x"],
         MockedFunction.mk true "" "Foo" [] [] []]).to_string (fun _ => 0)
      = (MockedClass.mk "Foo" "a::Foo" ""
        [MockedFunction.mk true "" "Foo" [] [] [],
         MockedFunction.mk false "int" "f" ["int"] ["int x"] ["x"]]).to_string (fun _ => 0) :=
  ⟨by decide,
   (C11_order_independent
      (MockedClass.mk "Foo" "a::Foo" ""
        [MockedFunction.mk false "int" "f" ["int"] ["int x"] ["x"],
         MockedFunction.mk true "" "Foo" [] [] []])
      (MockedClass.mk "Foo" "a::Foo" ""
        [MockedFunction.mk true "" "Foo" [] [] [],
         MockedFunction.mk false "int" "f" ["int"] ["int x"] ["x"]])
      rfl rfl rfl (List.Perm.swap _ _ _) (by decide)).1 (fun _ => 0)⟩

set_option maxRecDepth 100000 in
/-- C12, as the claim states it, fails for an operator member: appended twice it is converted
twice, each conversion with its own random value, and the class text has two member lines
where the class with the member appended once has one. -/
theorem C12_counterexample :
    ((MockedClass.mk "Foo" "::Foo" ""
        [MockedFunction.mk false "Foo" "operator+" ["int"] ["int x"] ["x"],
         MockedFunction.mk false "Foo" "operator+" ["int"] ["int x"] ["x"]]).to_string
        (fun i => i)).1
      = "    class MockFoo : public ::Foo\n    \x7b\n      public:\n        MOCK_METHOD1(Operator1, Foo(int));\n        virtual Foo operator+(int x) \x7b return Operator1(x); \x7d\n        MOCK_METHOD1(Operator0, Foo(int));\n        virtual Foo operator+(int x) \x7b return Operator0(x); \x7d\n    \x7d;\n"
    ∧ ((MockedClass.mk "Foo" "::Foo" ""
        [MockedFunction.mk false "Foo" "operator+" ["int"] ["int x"] ["x"]]).to_string
        (fun i => i)).1
      = "    class MockFoo : public ::Foo\n    \x7b\n      public:\n        MOCK_METHOD1(Operator0, Foo(int));\n        virtual Foo operator+(int x) \x7b return Operator0(x); \x7d\n    \x7d;\n"
    ∧ ((MockedClass.mk "Foo" "::Foo" ""
        [MockedFunction.mk false "Foo" "operator+" ["int"] ["int x"] ["x"],
         MockedFunction.mk false "Foo" "operator+" ["int"] ["int x"] ["x"]]).to_string
        (fun i => i)).1
      ≠ ((MockedClass.mk "Foo" "::Foo" ""
        [MockedFunction.mk false "Foo" "operator+" ["int"] ["int x"] ["x"]]).to_string
        (fun i => i)).1 := by
  decide

/-- C12, amended: for a member `m` that is no operator member (a constructor, or a member whose
name does not contain `operator`), a class with `m` appended twice converts to the same text,
and leaves the same generator, as the class with `m` appended once; the same holds for the
member that `add_function` builds from a declaration. -/
theorem C12_append_twice (c : MockedClass) (m : MockedFunction) (g : RandState)
    (hm : is_operator_member m = false) :
    (MockedClass.mk c.name c.qualified_name c.templ (c.funcs ++ [m, m])).to_string g
      = (MockedClass.mk c.name c.qualified_name c.templ (c.funcs ++ [m])).to_string g
    ∧ ∀ (d : CXCursor) (b : Bool), MockedFunction.new d b = m →
        ((c.add_function d b).add_function d b).to_string g
          = (c.add_function d b).to_string g := by
  have he : ∀ g' : RandState, m.to_string g' = ((m.to_string g).1, g') :=
    fun g' => to_string_of_not_operator m g' g hm
  generalize (m.to_string g).1 = t at he
  have h1 : render_funcs (c.funcs ++ [m, m]) g
      = ((render_funcs c.funcs g).1 ++ [t, t],
          (render_funcs c.funcs g).2) := by
    rw [render_funcs_append]
    simp only [render_funcs, he]
  have h2 : render_funcs (c.funcs ++ [m]) g
      = ((render_funcs c.funcs g).1 ++ [t], (render_funcs c.funcs g).2) := by
    rw [render_funcs_append]
    simp only [render_funcs, he]
  have key : (MockedClass.mk c.name c.qualified_name c.templ (c.funcs ++ [m, m])).to_string g
      = (MockedClass.mk c.name c.qualified_name c.templ (c.funcs ++ [m])).to_string g := by
    refine to_string_congr _ _ g rfl rfl rfl (member_lines_congr _ _ g g fun s => ?_) ?_
    · show s ∈ (render_funcs (c.funcs ++ [m, m]) g).1 ↔ s ∈ (render_funcs (c.funcs ++ [m]) g).1
      rw [h1, h2]
      simp
    · show (render_funcs (c.funcs ++ [m, m]) g).2 = (render_funcs (c.funcs ++ [m]) g).2
      rw [h1, h2]
  refine ⟨key, fun d b hd => ?_⟩
  simp only [MockedClass.add_function, hd, List.append_assoc, List.singleton_append]
  exact key

theorem C12_append_twice_witness :
    is_operator_member (MockedFunction.mk false "int" "f" ["int"] ["int x"] ["x"]) = false
    ∧ (MockedClass.mk "Foo" "::Foo" ""
        ([] ++ [MockedFunction.mk false "int" "f" ["int"] ["int x"] ["x"],
          MockedFunction.mk false "int" "f" ["int"] ["int x"] ["x"]])).to_string (fun i => i)
      = (MockedClass.mk "Foo" "::Foo" ""
        ([] ++ [MockedFunction.mk false "int" "f" ["int"] ["int x"] ["x"]])).to_string
          (fun i => i) :=
  ⟨by decide,
   (C12_append_twice (MockedClass.mk "Foo" "::Foo" "" [])
      (MockedFunction.mk false "int" "f" ["int"] ["int x"] ["x"]) (fun i => i)
      (by decide)).1⟩

/-- C13: two constructors built from parameter lists with the same types (hence the same
number of parameters) whose parameter names contain no `, ` and whose lists of parameter
names differ convert to different texts, whatever the constructor name and the generators;
a class holding both has both texts among its member lines, as two separate lines of the
class text. The types need not be free of `, ` for this. -/
theorem C13_ctor_names_distinct (name ret1 ret2 : String)
    (params1 params2 : List (String × String))
    (htypes : params1.map Prod.fst = params2.map Prod.fst)
    (hnames : params1.map Prod.snd ≠ params2.map Prod.snd)
    (h1 : ∀ p ∈ params1, find p.2 ", " = none) (h2 : ∀ p ∈ params2, find p.2 ", " = none) :
    (∀ g1 g2 : RandState,
      ((MockedFunction.new (cursor_of_params name ret1 params1) true).to_string g1).1
        ≠ ((MockedFunction.new (cursor_of_params name ret2 params2) true).to_string g2).1)
    ∧ ∀ (c : MockedClass) (g : RandState), c.name ≠ "" →
        MockedFunction.new (cursor_of_params name ret1 params1) true ∈ c.funcs →
        MockedFunction.new (cursor_of_params name ret2 params2) true ∈ c.funcs →
        (c.to_string g).1
          = "    " ++ c.templ ++ "class Mock" ++ c.name ++ " : public " ++ c.qualified_name
              ++ "\n    \x7b\n      public:\n        "
              ++ vec_join (member_lines c.funcs g) "\n        " ++ "\n    \x7d;\n"
        ∧ ((MockedFunction.new (cursor_of_params name ret1 params1) true).to_string g).1
            ∈ member_lines c.funcs g
        ∧ ((MockedFunction.new (cursor_of_params name ret2 params2) true).to_string g).1
            ∈ member_lines c.funcs g
        ∧ 2 ≤ (member_lines c.funcs g).length := by
  have hne : ∀ g1 g2 : RandState,
      ((MockedFunction.new (cursor_of_params name ret1 params1) true).to_string g1).1
        ≠ ((MockedFunction.new (cursor_of_params name ret2 params2) true).to_string g2).1 := by
    intro g1 g2 h
    rw [new_of_params, new_of_params, ctor_text _ g1 rfl, ctor_text _ g2 rfl] at h
    exact hnames (congrArg (List.map Prod.snd)
      (ctor_names_eq name params1 params2 htypes h1 h2 h))
  refine ⟨hne, fun c g hn hm1 hm2 => ?_⟩
  have hop1 : is_operator_member (MockedFunction.new (cursor_of_params name ret1 params1) true)
      = false := by rw [new_of_params]; rfl
  have hop2 : is_operator_member (MockedFunction.new (cursor_of_params name ret2 params2) true)
      = false := by rw [new_of_params]; rfl
  have m1 := (mem_member_lines c.funcs g _).mpr
    (mem_render_funcs_of_not_operator _ c.funcs g g hop1 hm1)
  have m2 := (mem_member_lines c.funcs g _).mpr
    (mem_render_funcs_of_not_operator _ c.funcs g g hop2 hm2)
  refine ⟨by rw [class_text c g hn], m1, m2, ?_⟩
  have hsub : List.Subperm
      [((MockedFunction.new (cursor_of_params name ret1 params1) true).to_string g).1,
       ((MockedFunction.new (cursor_of_params name ret2 params2) true).to_string g).1]
      (member_lines c.funcs g) := by
    refine List.subperm_of_subset ?_ ?_
    · simp [hne g g]
    · intro x hx
      rcases List.mem_cons.mp hx with hx | hx
      · exact hx ▸ m1
      · rw [List.mem_singleton] at hx
        exact hx ▸ m2
  simpa using hsub.length_le

theorem C13_ctor_names_distinct_witness :
    [("int", "x"), ("int", "y")].map Prod.snd ≠ [("int", "a"), ("int", "b")].map Prod.snd
    ∧ ((MockedFunction.new (cursor_of_params "Foo" "" [("int", "x"), ("int", "y")])
        true).to_string (fun _ => 0)).1 = "MockFoo(int x, int y) : Foo(x, y) \x7b\x7d"
    ∧ ((MockedFunction.new (cursor_of_params "Foo" "" [("int", "x"), ("int", "y")])
        true).to_string (fun _ => 0)).1
      ≠ ((MockedFunction.new (cursor_of_params "Foo" "" [("int", "a"), ("int", "b")])
        true).to_string (fun _ => 0)).1 :=
  ⟨by decide, by decide,
   (C13_ctor_names_distinct "Foo" "" "" [("int", "x"), ("int", "y")]
      [("int", "a"), ("int", "b")] rfl (by decide) (by decide) (by decide)).1
      (fun _ => 0) (fun _ => 0)⟩

/-- C14: constructing a member from a declaration with the ordered parameter list `params` of
(type spelling, name) pairs yields `arg_types` the types, `untyped_args` the names and
`typed_args` the type, a blank and the name, or the bare type for an empty name, all three of
the length of `params` and aligned by position; the return type field is empty for a
constructor and the supplied spelling otherwise. For any cursor the three lists have the
length `max(0, num_arguments)`. -/
theorem C14_constructor_fields (name ret : String) (params : List (String × String))
    (is_ctor : Bool) :
    MockedFunction.new (cursor_of_params name ret params) is_ctor
      = MockedFunction.mk is_ctor (if is_ctor then "" else ret) name
          (params.map Prod.fst) (params.map spec_typed_arg) (params.map Prod.snd)
    ∧ (MockedFunction.new (cursor_of_params name ret params) is_ctor).arg_types.length
        = params.length
    ∧ (MockedFunction.new (cursor_of_params name ret params) is_ctor).typed_args.length
        = params.length
    ∧ (MockedFunction.new (cursor_of_params name ret params) is_ctor).untyped_args.length
        = params.length
    ∧ (∀ (i : Nat) (t n : String), params[i]? = some (t, n) →
        (MockedFunction.new (cursor_of_params name ret params) is_ctor).arg_types[i]? = some t
        ∧ (MockedFunction.new (cursor_of_params name ret params) is_ctor).untyped_args[i]?
            = some n
        ∧ (MockedFunction.new (cursor_of_params name ret params) is_ctor).typed_args[i]?
            = some (if n = "" then t else t ++ " " ++ n))
    ∧ (MockedFunction.new (cursor_of_params name ret params) true).type = ""
    ∧ (MockedFunction.new (cursor_of_params name ret params) false).type = ret
    ∧ ∀ (cursor : CXCursor) (b : Bool),
        (MockedFunction.new cursor b).arg_types.length = (max 0 cursor.num_arguments).toNat
        ∧ (MockedFunction.new cursor b).typed_args.length = (max 0 cursor.num_arguments).toNat
        ∧ (MockedFunction.new cursor b).untyped_args.length
            = (max 0 cursor.num_arguments).toNat := by
  refine ⟨new_of_params name ret params is_ctor, ?_, ?_, ?_, ?_, ?_, ?_, ?_⟩
  · rw [new_of_params]; simp
  · rw [new_of_params]; simp
  · rw [new_of_params]; simp
  · intro i t n h
    rw [new_of_params]
    simp [List.getElem?_map, h, spec_typed_arg]
  · rw [new_of_params]; rfl
  · rw [new_of_params]; rfl
  · intro cursor b
    unfold MockedFunction.new
    rw [foldl_push_arg]
    simp

/-- C15, as the claim states it, fails: the texts of the fields are written one after the
other with nothing escaped, so two members with different names, return types or argument
types can convert to the same text when a name holds `, `, a return type holds `(`, or an
argument type holds `, `. -/
theorem C15_counterexample :
    ((MockedFunction.mk false "int" "f, g" [] [] []).to_string (fun _ => 0)).1
      = ((MockedFunction.mk false "g, int" "f" [] [] []).to_string (fun _ => 0)).1
    ∧ (MockedFunction.mk false "int" "f, g" [] [] []).name
      ≠ (MockedFunction.mk false "g, int" "f" [] [] []).name
    ∧ find "f, g" "operator" = none ∧ find "f" "operator" = none
    ∧ ((MockedFunction.mk false "A" "f" ["B(C)"] ["B(C) x"] ["x"]).to_string (fun _ => 0)).1
      = ((MockedFunction.mk false "A(B" "f" ["C)"] ["C) x"] ["x"]).to_string (fun _ => 0)).1
    ∧ (MockedFunction.mk false "A" "f" ["B(C)"] ["B(C) x"] ["x"]).type
      ≠ (MockedFunction.mk false "A(B" "f" ["C)"] ["C) x"] ["x"]).type
    ∧ ((MockedFunction.mk false "int" "f" ["A<int, int>", "B"] ["A<int, int> x", "B y"]
        ["x", "y"]).to_string (fun _ => 0)).1
      = ((MockedFunction.mk false "int" "f" ["A<int", "int>, B"] ["A<int x", "int>, B y"]
        ["x", "y"]).to_string (fun _ => 0)).1
    ∧ (MockedFunction.mk false "int" "f" ["A<int, int>", "B"] ["A<int, int> x", "B y"]
        ["x", "y"]).arg_types
      ≠ (MockedFunction.mk false "int" "f" ["A<int", "int>, B"] ["A<int x", "int>, B y"]
        ["x", "y"]).arg_types := by
  decide

/-- C15, amended: for two members that are no constructors, whose names do not contain
`operator`, each with its three argument lists of equal length, whose names and argument
types do not contain `, ` and whose return types do not contain `(`: if their texts are
equal, they have the same name, the same return type and the same argument types. -/
theorem C15_plain_text_distinguishes (a b : MockedFunction) (g1 g2 : RandState)
    (ha : a.is_ctor = false) (hb : b.is_ctor = false)
    (hoa : find a.name "operator" = none) (hob : find b.name "operator" = none)
    (hla : a.arg_types.length = a.typed_args.length
      ∧ a.typed_args.length = a.untyped_args.length)
    (hlb : b.arg_types.length = b.typed_args.length
      ∧ b.typed_args.length = b.untyped_args.length)
    (hna : find a.name ", " = none) (hnb : find b.name ", " = none)
    (hta : find a.type "(" = none) (htb : find b.type "(" = none)
    (haa : ∀ x ∈ a.arg_types, find x ", " = none)
    (hab : ∀ x ∈ b.arg_types, find x ", " = none)
    (h : (a.to_string g1).1 = (b.to_string g2).1) :
    a.name = b.name ∧ a.type = b.type ∧ a.arg_types = b.arg_types := by
  rw [plain_text a g1 ha hoa, plain_text b g2 hb hob] at h
  obtain ⟨hk, hname, hty, hj⟩ := plain_text_inj _ _ _ _ _ _ _ _ hna hnb hta htb h
  refine ⟨hname, hty, vec_join_inj _ _ ?_ haa hab hj⟩
  rw [hla.1, hlb.1, hk]

theorem C15_plain_text_distinguishes_witness :
    find "compute" "operator" = none
    ∧ find "compute" ", " = none
    ∧ find "double" "(" = none
    ∧ (MockedFunction.mk false "double" "compute" ["int", "float"] ["int a", "float b"]
        ["a", "b"]).arg_types
      = (MockedFunction.mk false "double" "compute" ["int", "float"] ["int x", "float"]
        ["x", ""]).arg_types :=
  ⟨by decide, by decide, by decide,
   (C15_plain_text_distinguishes
      (MockedFunction.mk false "double" "compute" ["int", "float"] ["int a", "float b"]
        ["a", "b"])
      (MockedFunction.mk false "double" "compute" ["int", "float"] ["int x", "float"]
        ["x", ""])
      (fun _ => 0) (fun _ => 1) rfl rfl (by decide) (by decide) ⟨rfl, rfl⟩ ⟨rfl, rfl⟩
      (by decide) (by decide) (by decide) (by decide) (by decide) (by decide)
      (by decide)).2.2⟩

/-- C16: `add_function` appends exactly one member, built from the declaration with the given
`is_ctor` flag (`false` when the flag is left out), at the end of `funcs`, also when an equal
member is already there, and leaves `name`, `qualified_name` and `templ` as they were. -/
theorem C16_add_function (c : MockedClass) (d : CXCursor) (is_ctor : Bool) :
    (c.add_function d is_ctor).funcs = c.funcs ++ [MockedFunction.new d is_ctor]
    ∧ (c.add_function d).funcs = c.funcs ++ [MockedFunction.new d false]
    ∧ (c.add_function d is_ctor).funcs.length = c.funcs.length + 1
    ∧ ((c.add_function d is_ctor).add_function d is_ctor).funcs
        = c.funcs ++ [MockedFunction.new d is_ctor, MockedFunction.new d is_ctor]
    ∧ (c.add_function d is_ctor).name = c.name
    ∧ (c.add_function d is_ctor).qualified_name = c.qualified_name
    ∧ (c.add_function d is_ctor).templ = c.templ := by
  refine ⟨rfl, rfl, ?_, ?_, rfl, rfl, rfl⟩
  · simp [MockedClass.add_function]
  · simp [MockedClass.add_function]

/-- C17: the text of an operator member carries, after `Operator`, the decimal digits of
`r mod 65536`, `r` being the value of `rand()`: a number in the range 0..65535. Two
conversions receive the same surrogate name exactly when their random values are congruent
modulo 65536, and then the texts of one member are equal too; texts with different numbers
differ. -/
theorem C17_surrogate_suffix (f : MockedFunction) (g1 g2 : RandState)
    (hc : f.is_ctor = false) (ho : find f.name "operator" ≠ none) :
    (f.to_string g1).1
      = "MOCK_METHOD" ++ format_uint f.typed_args.length ++ "("
          ++ ("Operator" ++ format_uint ((rand g1).1 % 65536)) ++ ", "
          ++ f.type ++ "(" ++ vec_join f.arg_types ", " ++ "));" ++ "\n        virtual "
          ++ f.type ++ " " ++ f.name ++ "(" ++ vec_join f.typed_args ", " ++ ") \x7b return "
          ++ ("Operator" ++ format_uint ((rand g1).1 % 65536)) ++ "("
          ++ vec_join f.untyped_args ", " ++ "); \x7d"
    ∧ (rand g1).1 % 65536 < 65536
    ∧ (surrogate_name g1 = surrogate_name g2
        ↔ (rand g1).1 % 65536 = (rand g2).1 % 65536)
    ∧ ((rand g1).1 % 65536 = (rand g2).1 % 65536 → (f.to_string g1).1 = (f.to_string g2).1)
    ∧ ((f.to_string g1).1 = (f.to_string g2).1
        → (rand g1).1 % 65536 = (rand g2).1 % 65536) := by
  have hsur : surrogate_name g1 = surrogate_name g2
      ↔ (rand g1).1 % 65536 = (rand g2).1 % 65536 := by
    unfold surrogate_name
    constructor
    · intro h
      exact format_uint_inj _ _ (string_append_left_cancel _ _ _ h)
    · intro h
      rw [h]
  refine ⟨?_, Nat.mod_lt _ (by decide), hsur, ?_, ?_⟩
  · rw [operator_text_surrogate f g1 hc ho]
    rfl
  · intro h
    rw [operator_text_surrogate f g1 hc ho, operator_text_surrogate f g2 hc ho, hsur.mpr h]
  · intro h
    rw [operator_text_surrogate f g1 hc ho, operator_text_surrogate f g2 hc ho] at h
    simp only [surrogate_name, String.append_assoc] at h
    have hd := congrArg String.data
      (string_append_left_cancel _ _ _ (string_append_left_cancel _ _ _
        (string_append_left_cancel _ _ _ (string_append_left_cancel _ _ _ h))))
    simp only [String.data_append] at hd
    have e2 : (", " : String).data = [',', ' '] := rfl
    simp only [e2, List.cons_append, List.nil_append] at hd
    have s1 := split_char ',' _ _ _ _ (not_mem_format_uint _ ',' (by decide))
      (not_mem_format_uint _ ',' (by decide)) hd
    exact format_uint_inj _ _ (String.ext s1.1)

theorem C17_surrogate_suffix_witness :
    find "operator+" "operator" ≠ none
    ∧ (rand (fun _ => 70000)).1 % 65536 = (rand (fun _ => 4464)).1 % 65536
    ∧ ((MockedFunction.mk false "Foo" "operator+" ["int"] ["int x"] ["x"]).to_string
        (fun _ => 70000)).1
      = "MOCK_METHOD1(Operator4464, Foo(int));\n        virtual Foo operator+(int x) \x7b return Operator4464(x); \x7d"
    ∧ ((MockedFunction.mk false "Foo" "operator+" ["int"] ["int x"] ["x"]).to_string
        (fun _ => 70000)).1
      = ((MockedFunction.mk false "Foo" "operator+" ["int"] ["int x"] ["x"]).to_string
        (fun _ => 4464)).1 :=
  ⟨by decide, by decide, by decide,
   (C17_surrogate_suffix (MockedFunction.mk false "Foo" "operator+" ["int"] ["int x"] ["x"])
      (fun _ => 70000) (fun _ => 4464) rfl (by decide)).2.2.2.1 (by decide)⟩

/-- C18: the operator branch is taken on a substring test: a member that is no constructor
and whose name has `operator` anywhere in it, such as `cooperator` or `get_operator`,
converts to the two-part text (the declaration under `Operator<n>`, a newline, and the
`virtual` override), which is never the plain declaration of that member. A member that is
no constructor and whose name does not have `operator` in it converts to the plain
declaration alone: the same text for every generator, the generator left untouched, and no
newline in it unless the name, the return type or an argument type holds one. -/
theorem C18_operator_branch_by_substring (ty name : String) (ats tas uas : List String)
    (g : RandState) :
    ((∃ pre post : String, name = pre ++ "operator" ++ post) →
      (MockedFunction.mk false ty name ats tas uas).to_string g
        = ("MOCK_METHOD" ++ format_uint tas.length ++ "(" ++ surrogate_name g ++ ", "
            ++ ty ++ "(" ++ vec_join ats ", " ++ "));" ++ "\n        virtual "
            ++ ty ++ " " ++ name ++ "(" ++ vec_join tas ", " ++ ") \x7b return "
            ++ surrogate_name g ++ "(" ++ vec_join uas ", " ++ "); \x7d", (rand g).2)
      ∧ ((MockedFunction.mk false ty name ats tas uas).to_string g).1
        ≠ "MOCK_METHOD" ++ format_uint tas.length ++ "(" ++ name ++ ", " ++ ty ++ "("
            ++ vec_join ats ", " ++ "));")
    ∧ ((¬ ∃ pre post : String, name = pre ++ "operator" ++ post) →
      (∀ g2 : RandState, (MockedFunction.mk false ty name ats tas uas).to_string g2
        = ("MOCK_METHOD" ++ format_uint tas.length ++ "(" ++ name ++ ", " ++ ty ++ "("
            ++ vec_join ats ", " ++ "));", g2))
      ∧ (∀ g2 : RandState, ((MockedFunction.mk false ty name ats tas uas).to_string g2).1
          = ((MockedFunction.mk false ty name ats tas uas).to_string g).1)
      ∧ ('\n' ∉ name.data → '\n' ∉ ty.data → (∀ x ∈ ats, '\n' ∉ x.data) →
          '\n' ∉ ((MockedFunction.mk false ty name ats tas uas).to_string g).1.data))
    ∧ ((MockedFunction.mk false "bool" "cooperator" [] [] []).to_string g).1
        = "MOCK_METHOD0(" ++ surrogate_name g ++ ", bool());"
            ++ "\n        virtual bool cooperator() \x7b return " ++ surrogate_name g
            ++ "(); \x7d"
    ∧ ((MockedFunction.mk false "Op" "get_operator" [] [] []).to_string g).1
        = "MOCK_METHOD0(" ++ surrogate_name g ++ ", Op());"
            ++ "\n        virtual Op get_operator() \x7b return " ++ surrogate_name g
            ++ "(); \x7d" := by
  refine ⟨fun hsub => ?_, fun hsub => ?_, ?_, ?_⟩
  · have ho : find name "operator" ≠ none := (find_ne_none_iff name "operator").mpr hsub
    have ht := operator_text_surrogate (MockedFunction.mk false ty name ats tas uas) g rfl ho
    refine ⟨ht, ?_⟩
    rw [ht]
    intro h
    have hl := congrArg String.length h
    simp only [String.length_append] at hl
    have hv : "\n        virtual ".length = 17 := rfl
    omega
  · have ho : find name "operator" = none := by
      by_contra hne
      exact hsub ((find_ne_none_iff name "operator").mp hne)
    have ht : ∀ g2 : RandState, (MockedFunction.mk false ty name ats tas uas).to_string g2
        = ("MOCK_METHOD" ++ format_uint tas.length ++ "(" ++ name ++ ", " ++ ty ++ "("
            ++ vec_join ats ", " ++ "));", g2) :=
      fun g2 => plain_text (MockedFunction.mk false ty name ats tas uas) g2 rfl ho
    refine ⟨ht, fun g2 => by rw [ht g2, ht g], fun h1 h2 h3 => ?_⟩
    rw [ht g]
    have hk := not_mem_format_uint tas.length '\n' (by decide)
    have hj := not_mem_vec_join '\n' ats ", " (by decide) h3
    simp only [String.data_append, List.mem_append, not_or]
    exact ⟨⟨⟨⟨⟨⟨⟨⟨by decide, hk⟩, by decide⟩, h1⟩, by decide⟩, h2⟩, by decide⟩, hj⟩, by decide⟩
  · rw [operator_text_surrogate _ g rfl (by decide)]
    generalize surrogate_name g = d
    apply String.ext
    simp only [String.data_append, List.append_assoc]
    rfl
  · rw [operator_text_surrogate _ g rfl (by decide)]
    generalize surrogate_name g = d
    apply String.ext
    simp only [String.data_append, List.append_assoc]
    rfl

theorem C18_operator_branch_by_substring_witness :
    (∃ pre post : String, "cooperator" = pre ++ "operator" ++ post)
    ∧ ((MockedFunction.mk false "bool" "cooperator" [] [] []).to_string (fun _ => 9)).1
      = "MOCK_METHOD0(Operator9, bool());\n        virtual bool cooperator() \x7b return Operator9(); \x7d"
    ∧ ((MockedFunction.mk false "bool" "cooperator" [] [] []).to_string (fun _ => 9)).1
      ≠ "MOCK_METHOD" ++ format_uint ([] : List String).length ++ "(" ++ "cooperator" ++ ", "
          ++ "bool" ++ "(" ++ vec_join [] ", " ++ "));" :=
  ⟨⟨"co", "", by decide⟩, by decide,
   ((C18_operator_branch_by_substring "bool" "cooperator" [] [] [] (fun _ => 9)).1
      ⟨"co", "", by decide⟩).2⟩

/-- C19: `ParseState(out, valid_namespaces)` has `has_namespace` set exactly when the vector
that `valid_namespaces` points to is empty, `continue_descending` set, an empty `class_name`
and no namespaces, and keeps the two pointers; the copy constructor copies `has_namespace`,
`class_name`, `out`, `namespaces` and `valid_namespaces` and always sets
`continue_descending`, also when the source has it cleared. -/
theorem C19_parse_state (vectors : Pointer → List String) (out valid_namespaces : Pointer)
    (ps : ParseState) :
    ((ParseState.new vectors out valid_namespaces).has_namespace = true
        ↔ vectors valid_namespaces = [])
    ∧ (ParseState.new vectors out valid_namespaces).continue_descending = true
    ∧ (ParseState.new vectors out valid_namespaces).class_name = ""
    ∧ (ParseState.new vectors out valid_namespaces).namespaces = []
    ∧ (ParseState.new vectors out valid_namespaces).out = out
    ∧ (ParseState.new vectors out valid_namespaces).valid_namespaces = valid_namespaces
    ∧ ps.copy.has_namespace = ps.has_namespace
    ∧ ps.copy.class_name = ps.class_name
    ∧ ps.copy.out = ps.out
    ∧ ps.copy.namespaces = ps.namespaces
    ∧ ps.copy.valid_namespaces = ps.valid_namespaces
    ∧ ps.copy.continue_descending = true
    ∧ (ParseState.mk false ps.has_namespace ps.class_name ps.out ps.namespaces
        ps.valid_namespaces).copy.continue_descending = true := by
  refine ⟨?_, rfl, rfl, rfl, rfl, rfl, rfl, rfl, rfl, rfl, rfl, rfl, rfl⟩
  unfold ParseState.new
  cases h : vectors valid_namespaces <;> simp

end MockMaker
